import Mathlib

/-!
Shallow embedding of the Eisenhower todo-matrix store of `src/lib/todo-tui.js`
(the `thoughts` repository), together with proofs of the specification's
claims about it.

Modelling conventions:
* JavaScript strings are embedded as `List Char` (`JStr`); `priority` and
  `urgency` are strings in the source (compared with `=== "high"` /
  `=== "urgent"`), so they stay strings here.
* Timestamps (`new Date().toISOString()`) are embedded as an abstract
  monotone clock value of type `Nat`; every store operation receives the
  current time `now` as an explicit argument.
* The persisted file is embedded as a `FileState`: absent, present but
  unparsable, or present with a parsed matrix.
* Fallible operations return the final file state together with an
  `Except JsError TodoMatrix`; a thrown JS exception is an `Except.error`.
* JS `findIndex` (`-1` / index) is embedded as `findIdxJs : Option Nat`;
  JS `parseInt(s, 10)` (number / `NaN`) as `parseIntJs : Option Int`.
* The out-of-bounds element access that `resolveUserFriendlyId` performs
  when `parseInt` returns `NaN` (a `TypeError` on `undefined.id`) is made
  explicit by the `ResolveOutcome.crash` constructor.
-/

abbrev JStr : Type := List Char

/-- Build a `JStr` from a Lean string literal. -/
def jstr (s : String) : JStr := s.data

/-- Time stamps: abstract clock values. -/
abbrev Time : Type := Nat

/-- A single todo item, with the fields built by `createTodo`. -/
structure TodoItem where
  id : JStr
  title : JStr
  description : JStr
  priority : JStr
  urgency : JStr
  completed : Bool
  createdAt : Time
  completedAt : Option Time
  tags : List JStr
  links : List JStr
  metadata : List (JStr × JStr)
deriving DecidableEq

instance : Inhabited TodoItem :=
  ⟨{ id := [], title := [], description := [], priority := [], urgency := []
     completed := false, createdAt := 0, completedAt := none
     tags := [], links := [], metadata := [] }⟩

/-- The four quadrant keys of the matrix. -/
inductive Quadrant where
  | important_urgent
  | important_not_urgent
  | not_important_urgent
  | not_important_not_urgent
deriving DecidableEq, Fintype

/-- The `stats` block recomputed by `saveTodoMatrix`. -/
structure TodoStats where
  total : Nat
  completed : Nat
  active : Nat
deriving DecidableEq

/-- The persisted todo matrix document. -/
structure TodoMatrix where
  important_urgent : List TodoItem
  important_not_urgent : List TodoItem
  not_important_urgent : List TodoItem
  not_important_not_urgent : List TodoItem
  stats : TodoStats
  lastUpdated : Time
deriving DecidableEq

/-- The quadrant sequence selected by a quadrant key (`matrix[quadrant]`). -/
def getQ (m : TodoMatrix) : Quadrant → List TodoItem
  | .important_urgent => m.important_urgent
  | .important_not_urgent => m.important_not_urgent
  | .not_important_urgent => m.not_important_urgent
  | .not_important_not_urgent => m.not_important_not_urgent

/-- Replace one quadrant sequence (`matrix[quadrant] = l`). -/
def setQ (m : TodoMatrix) (q : Quadrant) (l : List TodoItem) : TodoMatrix :=
  match q with
  | .important_urgent => { m with important_urgent := l }
  | .important_not_urgent => { m with important_not_urgent := l }
  | .not_important_urgent => { m with not_important_urgent := l }
  | .not_important_not_urgent => { m with not_important_not_urgent := l }

/-- `getQuadrantKey` from the source: `priority === "high"`,
`urgency === "urgent"`. -/
def getQuadrantKey (todo : TodoItem) : Quadrant :=
  let isImportant := todo.priority = jstr "high"
  let isUrgent := todo.urgency = jstr "urgent"
  if isImportant ∧ isUrgent then .important_urgent
  else if isImportant ∧ ¬isUrgent then .important_not_urgent
  else if ¬isImportant ∧ isUrgent then .not_important_urgent
  else .not_important_not_urgent

/-- All todos of the matrix, in quadrant order (as in `saveTodoMatrix`). -/
def allTodos (m : TodoMatrix) : List TodoItem :=
  m.important_urgent ++ m.important_not_urgent ++
    m.not_important_urgent ++ m.not_important_not_urgent

/-- JS `array.findIndex(p)`, as an `Option Nat` (the source only compares
the result with `-1`, so the `-1` case is `none`). -/
def findIdxJs (p : TodoItem → Bool) : List TodoItem → Option Nat
  | [] => none
  | t :: ts => if p t then some 0 else (findIdxJs p ts).map (· + 1)

/-- JS whitespace test, restricted to the ASCII space characters that
`parseInt` skips. -/
def isJsSpace (c : Char) : Bool :=
  c.toNat = 32 ∨ c.toNat = 9 ∨ c.toNat = 10 ∨ c.toNat = 13

/-- ASCII decimal digit test (`\d` of the display-id regex). -/
def isDigitChar (c : Char) : Bool := 48 ≤ c.toNat ∧ c.toNat ≤ 57

/-- Numeric value of a list of decimal digit characters, accumulated from
the left as `parseInt` does. -/
def digitsVal (ds : List Char) : Nat :=
  ds.foldl (fun acc c => acc * 10 + (c.toNat - 48)) 0

/-- The maximal leading run of decimal digits, or `none` when there is no
leading digit (so the parse is `NaN`). -/
def leadingDigits (cs : List Char) : Option Nat :=
  match cs.takeWhile isDigitChar with
  | [] => none
  | ds => some (digitsVal ds)

/-- JS `parseInt(s, 10)`: skip leading whitespace, optional sign, then the
maximal run of decimal digits; `none` is `NaN`. -/
def parseIntJs (s : JStr) : Option Int :=
  match List.dropWhile isJsSpace s with
  | [] => none
  | c :: rest =>
      if c = '-' then (leadingDigits rest).map (fun n => -(n : Int))
      else if c = '+' then (leadingDigits rest).map (fun n => (n : Int))
      else (leadingDigits (c :: rest)).map (fun n => (n : Int))

/-- JS `toUpperCase`, per character (the strings involved are ASCII). -/
def jsToUpper (c : Char) : Char :=
  if 97 ≤ c.toNat ∧ c.toNat ≤ 122 then Char.ofNat (c.toNat - 32) else c

/-- `isUserFriendlyId` from the source: the regex `/^[A-D]\d+$/i`. -/
def isUserFriendlyId (s : JStr) : Bool :=
  match s with
  | [] => false
  | c :: rest =>
      ((65 ≤ c.toNat ∧ c.toNat ≤ 68) ∨ (97 ≤ c.toNat ∧ c.toNat ≤ 100)) ∧
        rest ≠ [] ∧ rest.all isDigitChar

/-- `QUADRANT_PREFIX_MAP` from the source. -/
def QUADRANT_PREFIX_MAP : Quadrant → Char
  | .important_urgent => 'A'
  | .important_not_urgent => 'B'
  | .not_important_urgent => 'C'
  | .not_important_not_urgent => 'D'

/-- `QUADRANT_KEY_MAP` from the source, applied to `charAt(0)` of the
(possibly empty) uppercased id; `none` is an unmapped letter. -/
def QUADRANT_KEY_MAP : Option Char → Option Quadrant
  | some 'A' => some .important_urgent
  | some 'B' => some .important_not_urgent
  | some 'C' => some .not_important_urgent
  | some 'D' => some .not_important_not_urgent
  | _ => none

/-- Decimal digit character for a value below ten. -/
def digitChar (n : Nat) : Char := Char.ofNat (48 + n)

/-- Decimal digit characters of a positive number, most significant first,
prepended to `acc` (the digits JS produces for `${n}`). -/
def natDigitsCore : Nat → List Char → List Char
  | 0, acc => acc
  | n + 1, acc => natDigitsCore ((n + 1) / 10) (digitChar ((n + 1) % 10) :: acc)
decreasing_by exact Nat.div_lt_self (Nat.succ_pos n) (by omega)

/-- Decimal representation of a number, as JS template interpolation
produces it. -/
def natDigits (n : Nat) : List Char :=
  if n = 0 then ['0'] else natDigitsCore n []

/-- Outcome of `resolveUserFriendlyId`: a found stable id, JS `null`, or a
thrown `TypeError` (element access at index `NaN`). -/
inductive ResolveOutcome where
  | found (id : JStr)
  | nullRes
  | crash
deriving DecidableEq

/-- `generateDisplayId` from the source: quadrant letter from the item's
own fields, 1-based position by linear id scan; falls back to the first
eight characters of the stable id when the scan misses. -/
def generateDisplayId (m : TodoMatrix) (todo : TodoItem) : JStr :=
  let quadrant := getQuadrantKey todo
  let pfx := QUADRANT_PREFIX_MAP quadrant
  match findIdxJs (fun t => t.id = todo.id) (getQ m quadrant) with
  | some position => pfx :: natDigits (position + 1)
  | none => todo.id.take 8

/-- `resolveUserFriendlyId` from the source. Uppercases the whole id,
splits it as `charAt(0)` / `parseInt(substring(1), 10) - 1`, and walks the
source's guard sequence; when the parse is `NaN` every numeric guard is
false (JS `NaN` comparisons), so control reaches the element access and
crashes unless the letter already failed to map. -/
def resolveUserFriendlyId (m : TodoMatrix) (userFriendlyId : JStr) : ResolveOutcome :=
  let u := userFriendlyId.map jsToUpper
  let pfx : Option Char := u.head?
  match parseIntJs (u.drop 1) with
  | some v =>
      if v - 1 < 0 then .nullRes
      else
        match QUADRANT_KEY_MAP pfx with
        | none => .nullRes
        | some quadrant =>
            let l := getQ m quadrant
            if h : (v - 1).toNat < l.length then .found (l.get ⟨(v - 1).toNat, h⟩).id
            else .nullRes
  | none =>
      match QUADRANT_KEY_MAP pfx with
      | none => .nullRes
      | some _ => .crash

/-- Options object accepted by `createTodo`; a missing JS property is
`none`. -/
structure CreateOptions where
  id : Option JStr := none
  description : Option JStr := none
  priority : Option JStr := none
  urgency : Option JStr := none
  completed : Option Bool := none
  createdAt : Option Time := none
  completedAt : Option Time := none
  tags : Option (List JStr) := none
  links : Option (List JStr) := none
  metadata : Option (List (JStr × JStr)) := none
deriving DecidableEq

/-- JS `x || d` for an optional string property: a missing property and an
empty string are both falsy. -/
def jsOrStr (x : Option JStr) (d : JStr) : JStr :=
  match x with
  | some s => if s = [] then d else s
  | none => d

/-- `createTodo` from the source. `freshId` stands for the `uuidv4()`
call and `now` for `new Date().toISOString()`; both are inputs of the
embedding. There is no title validation: the title is trimmed and stored
as-is, empty or not. -/
def createTodo (title : JStr) (options : CreateOptions) (freshId : JStr) (now : Time) : TodoItem :=
  { id := jsOrStr options.id freshId
    title := (title.dropWhile isJsSpace).reverse.dropWhile isJsSpace |>.reverse
    description := jsOrStr options.description []
    priority := jsOrStr options.priority (jstr "low")
    urgency := jsOrStr options.urgency (jstr "not-urgent")
    completed := options.completed.getD false
    createdAt := options.createdAt.getD now
    completedAt := options.completedAt
    tags := options.tags.getD []
    links := options.links.getD []
    metadata := options.metadata.getD [] }

/-- State of the persisted `todo-matrix.json` file: missing, present but
not valid JSON, or present with a parsed matrix document. -/
inductive FileState where
  | absent
  | malformed
  | stored (m : TodoMatrix)
deriving DecidableEq

/-- JS exceptions thrown by the store operations. -/
inductive JsError where
  | notFound
  | typeError
deriving DecidableEq

/-- The default empty matrix built by `loadTodoMatrix`. -/
def defaultMatrix (now : Time) : TodoMatrix :=
  { important_urgent := []
    important_not_urgent := []
    not_important_urgent := []
    not_important_not_urgent := []
    stats := { total := 0, completed := 0, active := 0 }
    lastUpdated := now }

/-- `loadTodoMatrix` from the source: a parsable file is returned as-is; a
missing or unparsable file is replaced on disk by the default matrix,
which is returned. The `Bool` records whether the `console.warn` in the
catch block fired. -/
def loadTodoMatrix (now : Time) (st : FileState) : TodoMatrix × FileState × Bool :=
  match st with
  | .absent => (defaultMatrix now, .stored (defaultMatrix now), false)
  | .malformed => (defaultMatrix now, .stored (defaultMatrix now), true)
  | .stored m => (m, .stored m, false)

/-- `saveTodoMatrix` from the source: recompute `stats` from the four
sequences and refresh `lastUpdated`, then overwrite the document. -/
def saveTodoMatrix (now : Time) (m : TodoMatrix) : TodoMatrix :=
  { m with
    stats :=
      { total := (allTodos m).length
        completed := ((allTodos m).filter (fun t => t.completed)).length
        active := ((allTodos m).filter (fun t => ¬t.completed)).length }
    lastUpdated := now }

/-- `addTodo` from the source: load, push onto the sequence of the todo's
computed quadrant, save. -/
def addTodo (now : Time) (st : FileState) (todo : TodoItem) : FileState × TodoMatrix :=
  let load := loadTodoMatrix now st
  let matrix := load.1
  let quadrant := getQuadrantKey todo
  let matrix := setQ matrix quadrant (getQ matrix quadrant ++ [todo])
  let saved := saveTodoMatrix now matrix
  (.stored saved, saved)

/-- The `updates` object accepted by `updateTodo`; a missing JS property
is `none`. `completedAt := some v` is a patch that writes `v` (itself
possibly `null = none`) into the field. -/
structure TodoPatch where
  id : Option JStr := none
  title : Option JStr := none
  description : Option JStr := none
  priority : Option JStr := none
  urgency : Option JStr := none
  completed : Option Bool := none
  createdAt : Option Time := none
  completedAt : Option (Option Time) := none
  tags : Option (List JStr) := none
  links : Option (List JStr) := none
  metadata : Option (List (JStr × JStr)) := none
deriving DecidableEq

/-- The object spread `{ ...oldTodo, ...updates }`. -/
def applyPatch (old : TodoItem) (u : TodoPatch) : TodoItem :=
  { id := u.id.getD old.id
    title := u.title.getD old.title
    description := u.description.getD old.description
    priority := u.priority.getD old.priority
    urgency := u.urgency.getD old.urgency
    completed := u.completed.getD old.completed
    createdAt := u.createdAt.getD old.createdAt
    completedAt := u.completedAt.getD old.completedAt
    tags := u.tags.getD old.tags
    links := u.links.getD old.links
    metadata := u.metadata.getD old.metadata }

/-- The merge performed by `updateTodo`'s helper: spread the patch over
the old item, then apply the completion-transition rule
(`updates.completed === true` on a previously incomplete item stamps
`completedAt = now`; `updates.completed === false` clears it). -/
def mergeTodo (old : TodoItem) (u : TodoPatch) (now : Time) : TodoItem :=
  let merged := applyPatch old u
  if u.completed = some true ∧ old.completed = false then
    { merged with completedAt := some now }
  else if u.completed = some false then
    { merged with completedAt := none }
  else merged

/-- Accumulator threaded through the per-quadrant helpers (`matrix` and
the `found` flag they close over). -/
structure UpdAcc where
  matrix : TodoMatrix
  found : Bool
deriving DecidableEq

/-- `updateInQuadrant` from the source: find the item by id in one
quadrant sequence; if present, merge the patch, recompute its quadrant,
and either move it (splice out, push onto the new sequence) or replace it
in place. -/
def updateInQuadrant (todoId : JStr) (updates : TodoPatch) (now : Time)
    (q : Quadrant) (acc : UpdAcc) : UpdAcc :=
  let l := getQ acc.matrix q
  match findIdxJs (fun t => t.id = todoId) l with
  | none => acc
  | some index =>
      let oldTodo := l.getD index default
      let updatedTodo := mergeTodo oldTodo updates now
      let newQuadrant := getQuadrantKey updatedTodo
      if newQuadrant ≠ q then
        let m1 := setQ acc.matrix q (l.eraseIdx index)
        { matrix := setQ m1 newQuadrant (getQ m1 newQuadrant ++ [updatedTodo])
          found := true }
      else
        { matrix := setQ acc.matrix q (l.set index updatedTodo), found := true }

/-- The display-id resolution prelude shared by `updateTodo`,
`toggleTodo`, `deleteTodo`: a display-id-shaped argument is resolved,
and a falsy result (JS `null`, or an empty string id) throws the
not-found error; a resolution crash propagates as a `TypeError`. -/
def resolveIdStep (m : TodoMatrix) (todoId : JStr) : Except JsError JStr :=
  if isUserFriendlyId todoId then
    match resolveUserFriendlyId m todoId with
    | .found uuid => if uuid = [] then .error .notFound else .ok uuid
    | .nullRes => .error .notFound
    | .crash => .error .typeError
  else .ok todoId

/-- `updateTodo` from the source: load, resolve a display id, run the
helper over the four quadrants in declaration order, throw when nothing
was found, otherwise save. -/
def updateTodo (now : Time) (st : FileState) (todoId : JStr) (updates : TodoPatch) :
    FileState × Except JsError TodoMatrix :=
  let load := loadTodoMatrix now st
  let matrix := load.1
  match resolveIdStep matrix todoId with
  | .error e => (load.2.1, .error e)
  | .ok tid =>
      let a0 : UpdAcc := { matrix := matrix, found := false }
      let a1 := updateInQuadrant tid updates now .important_urgent a0
      let a2 := updateInQuadrant tid updates now .important_not_urgent a1
      let a3 := updateInQuadrant tid updates now .not_important_urgent a2
      let a4 := updateInQuadrant tid updates now .not_important_not_urgent a3
      if a4.found then
        let saved := saveTodoMatrix now a4.matrix
        (.stored saved, .ok saved)
      else
        (load.2.1, .error .notFound)

/-- `toggleTodo`'s per-quadrant helper: flip `completed` in place and
stamp or clear `completedAt`. -/
def toggleInQuadrant (todoId : JStr) (now : Time) (q : Quadrant) (acc : UpdAcc) : UpdAcc :=
  let l := getQ acc.matrix q
  match findIdxJs (fun t => t.id = todoId) l with
  | none => acc
  | some index =>
      let todo := l.getD index default
      let todo := { todo with completed := !todo.completed }
      let todo :=
        if todo.completed then { todo with completedAt := some now }
        else { todo with completedAt := none }
      { matrix := setQ acc.matrix q (l.set index todo), found := true }

/-- `toggleTodo` from the source. -/
def toggleTodo (now : Time) (st : FileState) (todoId : JStr) :
    FileState × Except JsError TodoMatrix :=
  let load := loadTodoMatrix now st
  let matrix := load.1
  match resolveIdStep matrix todoId with
  | .error e => (load.2.1, .error e)
  | .ok tid =>
      let a0 : UpdAcc := { matrix := matrix, found := false }
      let a1 := toggleInQuadrant tid now .important_urgent a0
      let a2 := toggleInQuadrant tid now .important_not_urgent a1
      let a3 := toggleInQuadrant tid now .not_important_urgent a2
      let a4 := toggleInQuadrant tid now .not_important_not_urgent a3
      if a4.found then
        let saved := saveTodoMatrix now a4.matrix
        (.stored saved, .ok saved)
      else
        (load.2.1, .error .notFound)

/-- `deleteTodo`'s per-quadrant helper: splice the item out. -/
def deleteFromQuadrant (todoId : JStr) (q : Quadrant) (acc : UpdAcc) : UpdAcc :=
  let l := getQ acc.matrix q
  match findIdxJs (fun t => t.id = todoId) l with
  | none => acc
  | some index => { matrix := setQ acc.matrix q (l.eraseIdx index), found := true }

/-- `deleteTodo` from the source. -/
def deleteTodo (now : Time) (st : FileState) (todoId : JStr) :
    FileState × Except JsError TodoMatrix :=
  let load := loadTodoMatrix now st
  let matrix := load.1
  match resolveIdStep matrix todoId with
  | .error e => (load.2.1, .error e)
  | .ok tid =>
      let a0 : UpdAcc := { matrix := matrix, found := false }
      let a1 := deleteFromQuadrant tid .important_urgent a0
      let a2 := deleteFromQuadrant tid .important_not_urgent a1
      let a3 := deleteFromQuadrant tid .not_important_urgent a2
      let a4 := deleteFromQuadrant tid .not_important_not_urgent a3
      if a4.found then
        let saved := saveTodoMatrix now a4.matrix
        (.stored saved, .ok saved)
      else
        (load.2.1, .error .notFound)

/-! ### Helper lemmas: characters and digit strings -/

theorem char_eq_of_toNat_eq {a b : Char} (h : a.toNat = b.toNat) : a = b :=
  Char.eq_of_val_eq (UInt32.ext h)

theorem digitChar_toNat {k : Nat} (h : k < 10) : (digitChar k).toNat = 48 + k := by
  interval_cases k <;> decide

theorem isDigitChar_digitChar {k : Nat} (h : k < 10) : isDigitChar (digitChar k) = true := by
  interval_cases k <;> decide

theorem jsToUpper_digit {c : Char} (h : isDigitChar c = true) : jsToUpper c = c := by
  simp only [isDigitChar, decide_eq_true_eq] at h
  simp only [jsToUpper, decide_eq_true_eq]
  rw [if_neg]
  omega

theorem isJsSpace_digit {c : Char} (h : isDigitChar c = true) : isJsSpace c = false := by
  simp only [isDigitChar, decide_eq_true_eq] at h
  simp only [isJsSpace]
  simp only [decide_eq_false_iff_not]
  omega

theorem digit_ne_dash {c : Char} (h : isDigitChar c = true) : c ≠ '-' := by
  simp only [isDigitChar, decide_eq_true_eq] at h
  intro hc
  subst hc
  revert h
  decide

theorem digit_ne_plus {c : Char} (h : isDigitChar c = true) : c ≠ '+' := by
  simp only [isDigitChar, decide_eq_true_eq] at h
  intro hc
  subst hc
  revert h
  decide

theorem map_jsToUpper_digits {l : List Char} (h : ∀ c ∈ l, isDigitChar c = true) :
    l.map jsToUpper = l := by
  induction l with
  | nil => rfl
  | cons a as ih =>
      simp only [List.map_cons, jsToUpper_digit (h a (List.mem_cons_self a as)),
        ih (fun c hc => h c (List.mem_cons_of_mem a hc)), List.cons.injEq, and_self]

theorem natDigitsCore_append (n : Nat) (acc : List Char) :
    natDigitsCore n acc = natDigitsCore n [] ++ acc := by
  induction n using Nat.strong_induction_on generalizing acc with
  | _ n ih =>
      match n with
      | 0 => simp [natDigitsCore]
      | m + 1 =>
          rw [natDigitsCore, natDigitsCore]
          rw [ih ((m + 1) / 10) (Nat.div_lt_self (Nat.succ_pos m) (by omega)),
            ih ((m + 1) / 10) (Nat.div_lt_self (Nat.succ_pos m) (by omega))
              [digitChar ((m + 1) % 10)]]
          simp

theorem natDigitsCore_digits (n : Nat) :
    ∀ c ∈ natDigitsCore n [], isDigitChar c = true := by
  induction n using Nat.strong_induction_on with
  | _ n ih =>
      match n with
      | 0 => intro c hc; rw [natDigitsCore] at hc; cases hc
      | m + 1 =>
          intro c hc
          rw [natDigitsCore, natDigitsCore_append] at hc
          rcases List.mem_append.mp hc with h1 | h2
          · exact ih ((m + 1) / 10) (Nat.div_lt_self (Nat.succ_pos m) (by omega)) c h1
          · rcases List.mem_singleton.mp h2 with rfl
            exact isDigitChar_digitChar (Nat.mod_lt _ (by omega))

theorem natDigits_digits (n : Nat) : ∀ c ∈ natDigits n, isDigitChar c = true := by
  intro c hc
  by_cases h : n = 0
  · subst h
    simp only [natDigits, if_pos rfl] at hc
    rcases List.mem_singleton.mp hc with rfl
    decide
  · simp only [natDigits, if_neg h] at hc
    exact natDigitsCore_digits n c hc

theorem natDigits_ne_nil (n : Nat) : natDigits n ≠ [] := by
  by_cases h : n = 0
  · subst h; simp [natDigits]
  · simp only [natDigits, if_neg h]
    match hm : n, h with
    | m + 1, _ =>
        rw [natDigitsCore, natDigitsCore_append]
        simp

theorem digitsVal_append_singleton (l : List Char) (c : Char) :
    digitsVal (l ++ [c]) = digitsVal l * 10 + (c.toNat - 48) := by
  simp [digitsVal, List.foldl_append]

theorem digitsVal_natDigitsCore (n : Nat) : digitsVal (natDigitsCore n []) = n := by
  induction n using Nat.strong_induction_on with
  | _ n ih =>
      match n with
      | 0 => rw [natDigitsCore]; rfl
      | m + 1 =>
          rw [natDigitsCore, natDigitsCore_append, digitsVal_append_singleton,
            ih ((m + 1) / 10) (Nat.div_lt_self (Nat.succ_pos m) (by omega)),
            digitChar_toNat (Nat.mod_lt _ (by omega))]
          omega

theorem digitsVal_natDigits (n : Nat) : digitsVal (natDigits n) = n := by
  by_cases h : n = 0
  · subst h; decide
  · simp only [natDigits, if_neg h]
    exact digitsVal_natDigitsCore n

/-- `parseInt` applied to a nonempty all-digit string returns its value. -/
theorem parseIntJs_digits {l : List Char} (hne : l ≠ [])
    (hd : ∀ c ∈ l, isDigitChar c = true) : parseIntJs l = some (digitsVal l : Int) := by
  match l, hne with
  | c :: rest, _ =>
      have hc := hd c (List.mem_cons_self c rest)
      have hdrop : List.dropWhile isJsSpace (c :: rest) = c :: rest := by
        rw [List.dropWhile_cons_of_neg]
        simp [isJsSpace_digit hc]
      have htake : List.takeWhile isDigitChar (c :: rest) = c :: rest :=
        List.takeWhile_eq_self_iff.mpr hd
      simp only [parseIntJs, hdrop, if_neg (digit_ne_dash hc), if_neg (digit_ne_plus hc),
        leadingDigits, htake]
      rfl

theorem parseIntJs_natDigits (n : Nat) :
    parseIntJs (natDigits n) = some (n : Int) := by
  rw [parseIntJs_digits (natDigits_ne_nil n) (natDigits_digits n), digitsVal_natDigits]

/-! ### Helper lemmas: quadrant access and search -/

theorem getQ_setQ_same (m : TodoMatrix) (q : Quadrant) (l : List TodoItem) :
    getQ (setQ m q l) q = l := by
  cases q <;> rfl

theorem getQ_setQ_ne (m : TodoMatrix) {q q' : Quadrant} (l : List TodoItem)
    (h : q' ≠ q) : getQ (setQ m q l) q' = getQ m q' := by
  cases q <;> cases q' <;> first | rfl | exact absurd rfl h

theorem getQ_saveTodoMatrix (now : Time) (m : TodoMatrix) (q : Quadrant) :
    getQ (saveTodoMatrix now m) q = getQ m q := by
  cases q <;> rfl

theorem getQuadrantKey_congr {a b : TodoItem} (hp : a.priority = b.priority)
    (hu : a.urgency = b.urgency) : getQuadrantKey a = getQuadrantKey b := by
  simp only [getQuadrantKey, hp, hu]

theorem findIdxJs_eq_none_of (p : TodoItem → Bool) (l : List TodoItem)
    (h : ∀ t ∈ l, p t = false) : findIdxJs p l = none := by
  induction l with
  | nil => rfl
  | cons a as ih =>
      have ha := h a (List.mem_cons_self a as)
      simp [findIdxJs, ha, ih (fun t ht => h t (List.mem_cons_of_mem a ht))]

theorem findIdxJs_isSome_of_mem {p : TodoItem → Bool} {l : List TodoItem} {t : TodoItem}
    (ht : t ∈ l) (hp : p t = true) : ∃ i, findIdxJs p l = some i := by
  induction l with
  | nil => cases ht
  | cons a as ih =>
      by_cases ha : p a = true
      · exact ⟨0, by simp [findIdxJs, ha]⟩
      · have ha' : p a = false := eq_false_of_ne_true ha
        rcases List.mem_cons.mp ht with rfl | ht'
        · exact absurd hp ha
        · rcases ih ht' with ⟨i, hi⟩
          exact ⟨i + 1, by simp [findIdxJs, ha', hi]⟩

theorem findIdxJs_spec {p : TodoItem → Bool} {l : List TodoItem} {i : Nat}
    (h : findIdxJs p l = some i) :
    i < l.length ∧ p (l.getD i default) = true := by
  induction l generalizing i with
  | nil => cases h
  | cons a as ih =>
      by_cases ha : p a = true
      · simp only [findIdxJs, if_pos ha, Option.some.injEq] at h
        subst h
        simp [ha, List.getD]
      · have ha' : p a = false := eq_false_of_ne_true ha
        simp only [findIdxJs, ha', Bool.false_eq_true, if_false, Option.map_eq_some'] at h
        rcases h with ⟨j, hj, rfl⟩
        rcases ih hj with ⟨h1, h2⟩
        refine ⟨by simpa using Nat.succ_lt_succ h1, ?_⟩
        simpa [List.getD] using h2

theorem findIdxJs_set_same {p : TodoItem → Bool} {l : List TodoItem} {i : Nat} {x : TodoItem}
    (h : findIdxJs p l = some i) (hx : p x = true) :
    findIdxJs p (l.set i x) = some i := by
  induction l generalizing i with
  | nil => cases h
  | cons a as ih =>
      by_cases ha : p a = true
      · simp only [findIdxJs, if_pos ha, Option.some.injEq] at h
        subst h
        simp [List.set, findIdxJs, hx]
      · have ha' : p a = false := eq_false_of_ne_true ha
        simp only [findIdxJs, ha', Bool.false_eq_true, if_false, Option.map_eq_some'] at h
        rcases h with ⟨j, hj, rfl⟩
        simp [List.set, findIdxJs, ha', ih hj]

theorem findIdxJs_append_hit {p : TodoItem → Bool} {l : List TodoItem} {x : TodoItem}
    (h : ∀ t ∈ l, p t = false) (hx : p x = true) :
    findIdxJs p (l ++ [x]) = some l.length := by
  induction l with
  | nil => simp [findIdxJs, hx]
  | cons a as ih =>
      have ha := h a (List.mem_cons_self a as)
      simp [findIdxJs, ha, ih (fun t ht => h t (List.mem_cons_of_mem a ht))]

/-! ### Helper lemmas: merging -/

theorem mergeTodo_id (old : TodoItem) (u : TodoPatch) (now : Time) :
    (mergeTodo old u now).id = u.id.getD old.id := by
  simp only [mergeTodo, applyPatch]
  split
  · rfl
  · split <;> rfl

theorem mergeTodo_createdAt (old : TodoItem) (u : TodoPatch) (now : Time) :
    (mergeTodo old u now).createdAt = u.createdAt.getD old.createdAt := by
  simp only [mergeTodo, applyPatch]
  split
  · rfl
  · split <;> rfl

theorem mergeTodo_priority (old : TodoItem) (u : TodoPatch) (now : Time) :
    (mergeTodo old u now).priority = u.priority.getD old.priority := by
  simp only [mergeTodo, applyPatch]
  split
  · rfl
  · split <;> rfl

theorem mergeTodo_urgency (old : TodoItem) (u : TodoPatch) (now : Time) :
    (mergeTodo old u now).urgency = u.urgency.getD old.urgency := by
  simp only [mergeTodo, applyPatch]
  split
  · rfl
  · split <;> rfl

/-- Re-merging the same patch does not change priority or urgency, so the
recomputed quadrant of a re-merged item is stable. -/
theorem getQuadrantKey_mergeTodo_mergeTodo (old : TodoItem) (u : TodoPatch) (now now' : Time) :
    getQuadrantKey (mergeTodo (mergeTodo old u now) u now') =
      getQuadrantKey (mergeTodo old u now) := by
  apply getQuadrantKey_congr
  · rw [mergeTodo_priority, mergeTodo_priority]
    cases u.priority <;> rfl
  · rw [mergeTodo_urgency, mergeTodo_urgency]
    cases u.urgency <;> rfl

theorem todoItem_ext {a b : TodoItem} (h1 : a.id = b.id) (h2 : a.title = b.title)
    (h3 : a.description = b.description) (h4 : a.priority = b.priority)
    (h5 : a.urgency = b.urgency) (h6 : a.completed = b.completed)
    (h7 : a.createdAt = b.createdAt) (h8 : a.completedAt = b.completedAt)
    (h9 : a.tags = b.tags) (h10 : a.links = b.links) (h11 : a.metadata = b.metadata) :
    a = b := by
  cases a
  cases b
  simp_all

theorem opt_getD_getD {α : Type} (o : Option α) (a : α) : o.getD (o.getD a) = o.getD a := by
  cases o <;> rfl

theorem mergeTodo_title (old : TodoItem) (u : TodoPatch) (now : Time) :
    (mergeTodo old u now).title = u.title.getD old.title := by
  simp only [mergeTodo, applyPatch]
  split
  · rfl
  · split <;> rfl

theorem mergeTodo_description (old : TodoItem) (u : TodoPatch) (now : Time) :
    (mergeTodo old u now).description = u.description.getD old.description := by
  simp only [mergeTodo, applyPatch]
  split
  · rfl
  · split <;> rfl

theorem mergeTodo_completed (old : TodoItem) (u : TodoPatch) (now : Time) :
    (mergeTodo old u now).completed = u.completed.getD old.completed := by
  simp only [mergeTodo, applyPatch]
  split
  · rfl
  · split <;> rfl

theorem mergeTodo_tags (old : TodoItem) (u : TodoPatch) (now : Time) :
    (mergeTodo old u now).tags = u.tags.getD old.tags := by
  simp only [mergeTodo, applyPatch]
  split
  · rfl
  · split <;> rfl

theorem mergeTodo_links (old : TodoItem) (u : TodoPatch) (now : Time) :
    (mergeTodo old u now).links = u.links.getD old.links := by
  simp only [mergeTodo, applyPatch]
  split
  · rfl
  · split <;> rfl

theorem mergeTodo_metadata (old : TodoItem) (u : TodoPatch) (now : Time) :
    (mergeTodo old u now).metadata = u.metadata.getD old.metadata := by
  simp only [mergeTodo, applyPatch]
  split
  · rfl
  · split <;> rfl

theorem mergeTodo_completedAt (old : TodoItem) (u : TodoPatch) (now : Time) :
    (mergeTodo old u now).completedAt =
      if u.completed = some true ∧ old.completed = false then some now
      else if u.completed = some false then none
      else u.completedAt.getD old.completedAt := by
  simp only [mergeTodo, applyPatch]
  split_ifs <;> rfl

/-- Re-merging the same patch is the identity, provided the patch does not
both set `completed` to true and carry a `completedAt` value (in that one
corner the re-merge overwrites the freshly stamped `completedAt` with the
patch's value). -/
theorem mergeTodo_idem (old : TodoItem) (u : TodoPatch) (now now' : Time)
    (hc : u.completed = some true → u.completedAt = none) :
    mergeTodo (mergeTodo old u now) u now' = mergeTodo old u now := by
  apply todoItem_ext
  · rw [mergeTodo_id, mergeTodo_id, opt_getD_getD]
  · rw [mergeTodo_title, mergeTodo_title, opt_getD_getD]
  · rw [mergeTodo_description, mergeTodo_description, opt_getD_getD]
  · rw [mergeTodo_priority, mergeTodo_priority, opt_getD_getD]
  · rw [mergeTodo_urgency, mergeTodo_urgency, opt_getD_getD]
  · rw [mergeTodo_completed, mergeTodo_completed, opt_getD_getD]
  · rw [mergeTodo_createdAt, mergeTodo_createdAt, opt_getD_getD]
  · rw [mergeTodo_completedAt, mergeTodo_completedAt, mergeTodo_completed]
    rcases hu : u.completed with _ | b
    · simp [opt_getD_getD]
    · cases b
      · simp
      · have hca := hc hu
        simp [hca]
  · rw [mergeTodo_tags, mergeTodo_tags, opt_getD_getD]
  · rw [mergeTodo_links, mergeTodo_links, opt_getD_getD]
  · rw [mergeTodo_metadata, mergeTodo_metadata, opt_getD_getD]

/-! ### Helper lemmas: the per-quadrant passes -/

theorem updateInQuadrant_miss {tid : JStr} {u : TodoPatch} {now : Time} {q : Quadrant}
    {acc : UpdAcc} (h : findIdxJs (fun t => t.id = tid) (getQ acc.matrix q) = none) :
    updateInQuadrant tid u now q acc = acc := by
  simp only [updateInQuadrant, h]

theorem updateInQuadrant_stay {tid : JStr} {u : TodoPatch} {now : Time} {q : Quadrant}
    {acc : UpdAcc} {i : Nat}
    (h : findIdxJs (fun t => t.id = tid) (getQ acc.matrix q) = some i)
    (hq : getQuadrantKey (mergeTodo ((getQ acc.matrix q).getD i default) u now) = q) :
    updateInQuadrant tid u now q acc =
      { matrix := setQ acc.matrix q
          ((getQ acc.matrix q).set i (mergeTodo ((getQ acc.matrix q).getD i default) u now))
        found := true } := by
  simp only [updateInQuadrant, h, hq, ne_eq, not_true_eq_false, if_false]

theorem updateInQuadrant_move {tid : JStr} {u : TodoPatch} {now : Time} {q : Quadrant}
    {acc : UpdAcc} {i : Nat}
    (h : findIdxJs (fun t => t.id = tid) (getQ acc.matrix q) = some i)
    (hq : getQuadrantKey (mergeTodo ((getQ acc.matrix q).getD i default) u now) ≠ q) :
    updateInQuadrant tid u now q acc =
      { matrix :=
          setQ (setQ acc.matrix q ((getQ acc.matrix q).eraseIdx i))
            (getQuadrantKey (mergeTodo ((getQ acc.matrix q).getD i default) u now))
            (getQ (setQ acc.matrix q ((getQ acc.matrix q).eraseIdx i))
              (getQuadrantKey (mergeTodo ((getQ acc.matrix q).getD i default) u now)) ++
              [mergeTodo ((getQ acc.matrix q).getD i default) u now])
        found := true } := by
  simp only [updateInQuadrant, h, hq, ne_eq, not_false_eq_true, if_true]

theorem toggleInQuadrant_miss {tid : JStr} {now : Time} {q : Quadrant}
    {acc : UpdAcc} (h : findIdxJs (fun t => t.id = tid) (getQ acc.matrix q) = none) :
    toggleInQuadrant tid now q acc = acc := by
  simp only [toggleInQuadrant, h]

/-- The item written back by a toggle hit. -/
def toggleItem (t : TodoItem) (now : Time) : TodoItem :=
  if !t.completed then { t with completed := true, completedAt := some now }
  else { t with completed := false, completedAt := none }

theorem toggleInQuadrant_hit {tid : JStr} {now : Time} {q : Quadrant}
    {acc : UpdAcc} {i : Nat}
    (h : findIdxJs (fun t => t.id = tid) (getQ acc.matrix q) = some i) :
    toggleInQuadrant tid now q acc =
      { matrix := setQ acc.matrix q
          ((getQ acc.matrix q).set i (toggleItem ((getQ acc.matrix q).getD i default) now))
        found := true } := by
  simp only [toggleInQuadrant, h, toggleItem]
  rcases hcpl : ((getQ acc.matrix q).getD i default).completed with _ | _ <;>
    simp [hcpl]

theorem deleteFromQuadrant_miss {tid : JStr} {q : Quadrant}
    {acc : UpdAcc} (h : findIdxJs (fun t => t.id = tid) (getQ acc.matrix q) = none) :
    deleteFromQuadrant tid q acc = acc := by
  simp only [deleteFromQuadrant, h]

theorem deleteFromQuadrant_hit {tid : JStr} {q : Quadrant}
    {acc : UpdAcc} {i : Nat}
    (h : findIdxJs (fun t => t.id = tid) (getQ acc.matrix q) = some i) :
    deleteFromQuadrant tid q acc =
      { matrix := setQ acc.matrix q ((getQ acc.matrix q).eraseIdx i), found := true } := by
  simp only [deleteFromQuadrant, h]

/-! ### The quadrant-consistency invariant -/

/-- Every item of every quadrant sequence computes back to that quadrant. -/
def QuadInv (m : TodoMatrix) : Prop :=
  ∀ q : Quadrant, ∀ t ∈ getQ m q, getQuadrantKey t = q

theorem quadInv_defaultMatrix (now : Time) : QuadInv (defaultMatrix now) := by
  intro q t ht
  cases q <;> cases ht

theorem quadInv_save {now : Time} {m : TodoMatrix} (h : QuadInv m) :
    QuadInv (saveTodoMatrix now m) := by
  intro q t ht
  rw [getQ_saveTodoMatrix] at ht
  exact h q t ht

theorem quadInv_setQ {m : TodoMatrix} {q : Quadrant} {l : List TodoItem}
    (h : QuadInv m) (hl : ∀ t ∈ l, getQuadrantKey t = q) : QuadInv (setQ m q l) := by
  intro q' t ht
  by_cases hq : q' = q
  · subst hq
    rw [getQ_setQ_same] at ht
    exact hl t ht
  · rw [getQ_setQ_ne _ _ hq] at ht
    exact h q' t ht

theorem quadInv_updateInQuadrant {tid : JStr} {u : TodoPatch} {now : Time} {q : Quadrant}
    {acc : UpdAcc} (h : QuadInv acc.matrix) :
    QuadInv (updateInQuadrant tid u now q acc).matrix := by
  rcases hf : findIdxJs (fun t => t.id = tid) (getQ acc.matrix q) with _ | i
  · rw [updateInQuadrant_miss hf]
    exact h
  · set old := (getQ acc.matrix q).getD i default with hold
    by_cases hq : getQuadrantKey (mergeTodo old u now) = q
    · rw [updateInQuadrant_stay hf hq]
      refine quadInv_setQ h ?_
      intro t ht
      rcases List.mem_or_eq_of_mem_set ht with h1 | rfl
      · exact h q t h1
      · exact hq
    · rw [updateInQuadrant_move hf hq]
      refine quadInv_setQ (quadInv_setQ h ?_) ?_
      · intro t ht
        exact h q t ((List.eraseIdx_sublist _ i).mem ht)
      · intro t ht
        rcases List.mem_append.mp ht with h1 | h2
        · rw [getQ_setQ_ne _ _ hq] at h1
          exact h _ t h1
        · rcases List.mem_singleton.mp h2 with rfl
          rfl

theorem quadInv_toggleInQuadrant {tid : JStr} {now : Time} {q : Quadrant}
    {acc : UpdAcc} (h : QuadInv acc.matrix) :
    QuadInv (toggleInQuadrant tid now q acc).matrix := by
  rcases hf : findIdxJs (fun t => t.id = tid) (getQ acc.matrix q) with _ | i
  · rw [toggleInQuadrant_miss hf]
    exact h
  · rw [toggleInQuadrant_hit hf]
    refine quadInv_setQ h ?_
    intro t ht
    rcases List.mem_or_eq_of_mem_set ht with h1 | rfl
    · exact h q t h1
    · have hi : i < (getQ acc.matrix q).length := (findIdxJs_spec hf).1
      have hmem : (getQ acc.matrix q).getD i default ∈ getQ acc.matrix q := by
        rw [List.getD_eq_getElem _ _ hi]
        exact List.getElem_mem hi
      rw [show getQuadrantKey (toggleItem ((getQ acc.matrix q).getD i default) now) =
            getQuadrantKey ((getQ acc.matrix q).getD i default) from ?_]
      · exact h q _ hmem
      · unfold toggleItem
        split <;> exact getQuadrantKey_congr rfl rfl

theorem quadInv_deleteFromQuadrant {tid : JStr} {q : Quadrant}
    {acc : UpdAcc} (h : QuadInv acc.matrix) :
    QuadInv (deleteFromQuadrant tid q acc).matrix := by
  rcases hf : findIdxJs (fun t => t.id = tid) (getQ acc.matrix q) with _ | i
  · rw [deleteFromQuadrant_miss hf]
    exact h
  · rw [deleteFromQuadrant_hit hf]
    refine quadInv_setQ h ?_
    intro t ht
    exact h q t ((List.eraseIdx_sublist _ i).mem ht)

/-- The invariant lifted to a file state: whatever matrix is on disk
satisfies it. -/
def StInv (st : FileState) : Prop :=
  ∀ m : TodoMatrix, st = .stored m → QuadInv m

theorem stInv_load (now : Time) {st : FileState} (h : StInv st) :
    QuadInv (loadTodoMatrix now st).1 ∧ StInv (loadTodoMatrix now st).2.1 := by
  cases st with
  | absent =>
      exact ⟨quadInv_defaultMatrix now, fun m hm => by
        cases hm
        exact quadInv_defaultMatrix now⟩
  | malformed =>
      exact ⟨quadInv_defaultMatrix now, fun m hm => by
        cases hm
        exact quadInv_defaultMatrix now⟩
  | stored m =>
      exact ⟨h m rfl, fun m' hm' => by
        cases hm'
        exact h _ rfl⟩

theorem stInv_addTodo (now : Time) {st : FileState} (todo : TodoItem) (h : StInv st) :
    StInv (addTodo now st todo).1 := by
  have hload := stInv_load now h
  unfold addTodo
  intro m hm
  cases hm
  apply quadInv_save
  apply quadInv_setQ hload.1
  intro t ht
  rcases List.mem_append.mp ht with h1 | h2
  · exact hload.1 _ t h1
  · rcases List.mem_singleton.mp h2 with rfl
    rfl

theorem stInv_updateTodo (now : Time) {st : FileState} (tid : JStr) (u : TodoPatch)
    (h : StInv st) : StInv (updateTodo now st tid u).1 := by
  have hload := stInv_load now h
  unfold updateTodo
  rcases hres : resolveIdStep (loadTodoMatrix now st).1 tid with e | t2
  · simpa only [hres] using hload.2
  · simp only [hres]
    split
    · intro m hm
      cases hm
      exact quadInv_save (quadInv_updateInQuadrant (quadInv_updateInQuadrant
        (quadInv_updateInQuadrant (quadInv_updateInQuadrant hload.1))))
    · exact hload.2

theorem stInv_toggleTodo (now : Time) {st : FileState} (tid : JStr)
    (h : StInv st) : StInv (toggleTodo now st tid).1 := by
  have hload := stInv_load now h
  unfold toggleTodo
  rcases hres : resolveIdStep (loadTodoMatrix now st).1 tid with e | t2
  · simpa only [hres] using hload.2
  · simp only [hres]
    split
    · intro m hm
      cases hm
      exact quadInv_save (quadInv_toggleInQuadrant (quadInv_toggleInQuadrant
        (quadInv_toggleInQuadrant (quadInv_toggleInQuadrant hload.1))))
    · exact hload.2

theorem stInv_deleteTodo (now : Time) {st : FileState} (tid : JStr)
    (h : StInv st) : StInv (deleteTodo now st tid).1 := by
  have hload := stInv_load now h
  unfold deleteTodo
  rcases hres : resolveIdStep (loadTodoMatrix now st).1 tid with e | t2
  · simpa only [hres] using hload.2
  · simp only [hres]
    split
    · intro m hm
      cases hm
      exact quadInv_save (quadInv_deleteFromQuadrant (quadInv_deleteFromQuadrant
        (quadInv_deleteFromQuadrant (quadInv_deleteFromQuadrant hload.1))))
    · exact hload.2

/-- File states reachable from the empty matrix through the four store
operations (with arbitrary arguments and clock values). -/
inductive Reachable : FileState → Prop where
  | init (t : Time) : Reachable (.stored (defaultMatrix t))
  | add (now : Time) (todo : TodoItem) {st : FileState} :
      Reachable st → Reachable (addTodo now st todo).1
  | update (now : Time) (tid : JStr) (u : TodoPatch) {st : FileState} :
      Reachable st → Reachable (updateTodo now st tid u).1
  | toggle (now : Time) (tid : JStr) {st : FileState} :
      Reachable st → Reachable (toggleTodo now st tid).1
  | del (now : Time) (tid : JStr) {st : FileState} :
      Reachable st → Reachable (deleteTodo now st tid).1

theorem stInv_reachable {st : FileState} (h : Reachable st) : StInv st := by
  induction h with
  | init t =>
      intro m hm
      cases hm
      exact quadInv_defaultMatrix t
  | add now todo _ ih => exact stInv_addTodo now todo ih
  | update now tid u _ ih => exact stInv_updateTodo now tid u ih
  | toggle now tid _ ih => exact stInv_toggleTodo now tid ih
  | del now tid _ ih => exact stInv_deleteTodo now tid ih

/-! ### Claim C1 -/

/-- C1. Quadrant consistency invariant: after any sequence of add, update,
toggle, and delete operations starting from the empty matrix, every
`TodoItem` in the matrix lies in exactly one of the four quadrant
sequences, and that sequence is always the one computed from the item's
current (priority, urgency) by the quadrant mapping (high/urgent →
important_urgent, high/not-urgent → important_not_urgent, low/urgent →
not_important_urgent, low/not-urgent → not_important_not_urgent). -/
theorem quadrant_consistency_invariant :
    (∀ (st : FileState) (m : TodoMatrix), Reachable st → st = .stored m →
       (∀ q : Quadrant, ∀ t ∈ getQ m q, getQuadrantKey t = q) ∧
       (∀ (t : TodoItem) (q q' : Quadrant), t ∈ getQ m q → t ∈ getQ m q' → q = q')) ∧
    (∀ t : TodoItem,
       (t.priority = jstr "high" → t.urgency = jstr "urgent" →
          getQuadrantKey t = .important_urgent) ∧
       (t.priority = jstr "high" → t.urgency = jstr "not-urgent" →
          getQuadrantKey t = .important_not_urgent) ∧
       (t.priority = jstr "low" → t.urgency = jstr "urgent" →
          getQuadrantKey t = .not_important_urgent) ∧
       (t.priority = jstr "low" → t.urgency = jstr "not-urgent" →
          getQuadrantKey t = .not_important_not_urgent)) := by
  constructor
  · intro st m hreach hst
    have hinv : QuadInv m := stInv_reachable hreach m hst
    refine ⟨hinv, ?_⟩
    intro t q q' hq hq'
    rw [← hinv q t hq, ← hinv q' t hq']
  · intro t
    have hne1 : jstr "not-urgent" ≠ jstr "urgent" := by decide
    have hne2 : jstr "low" ≠ jstr "high" := by decide
    refine ⟨?_, ?_, ?_, ?_⟩ <;> intro hp hu <;>
      simp [getQuadrantKey, hp, hu, hne1, hne2]

/-- A concrete high/urgent item for exercising the reachable-state part of
the invariant theorem. -/
def sampleHighUrgent : TodoItem :=
  { id := jstr "a1b2", title := jstr "w", description := [], priority := jstr "high",
    urgency := jstr "urgent", completed := false, createdAt := 0, completedAt := none,
    tags := [], links := [], metadata := [] }

/-- Witness for C1 at a concrete reachable state (one `add` after the
initial empty matrix) and a concrete item. -/
theorem quadrant_consistency_invariant_witness :
    (∀ q : Quadrant,
       ∀ t ∈ getQ ((addTodo 1 (.stored (defaultMatrix 0)) sampleHighUrgent).2) q,
         getQuadrantKey t = q) ∧
    getQuadrantKey sampleHighUrgent = .important_urgent :=
  ⟨(quadrant_consistency_invariant.1 _ _
      (Reachable.add 1 sampleHighUrgent (Reachable.init 0)) rfl).1,
   (quadrant_consistency_invariant.2 sampleHighUrgent).1 rfl rfl⟩

/-! ### Claim C9 -/

/-- C9. Destructive recovery on malformed store: if the persisted file
exists but fails to parse, `loadTodoMatrix` returns the default empty
matrix (four empty sequences, zeroed stats), overwrites the on-disk file
with that default, and logs a warning; a well-formed existing file is
returned as parsed and never rewritten by load. -/
theorem loadTodoMatrix_malformed_recovery :
    ∀ now : Time,
      loadTodoMatrix now .malformed =
        (defaultMatrix now, .stored (defaultMatrix now), true) ∧
      (∀ q : Quadrant, getQ (defaultMatrix now) q = []) ∧
      (defaultMatrix now).stats = { total := 0, completed := 0, active := 0 } ∧
      (∀ m : TodoMatrix, loadTodoMatrix now (.stored m) = (m, .stored m, false)) := by
  intro now
  refine ⟨rfl, ?_, rfl, fun m => rfl⟩
  intro q
  cases q <;> rfl

/-! ### Claim C7 -/

/-- C7. Not-found atomicity: for a persisted matrix and an identifier
(stable id or display-id-shaped string) that resolves to no item in any
quadrant sequence, each of update, toggle and delete raises the not-found
error and performs no mutation: no save occurs and the persisted state is
exactly the matrix that was on disk before the call. -/
theorem notFound_atomicity (m : TodoMatrix) (tid : JStr) (u : TodoPatch)
    (now1 now2 now3 : Time)
    (h : (isUserFriendlyId tid = true ∧ resolveUserFriendlyId m tid = .nullRes) ∨
         (isUserFriendlyId tid = false ∧ ∀ q : Quadrant, ∀ t ∈ getQ m q, t.id ≠ tid)) :
    updateTodo now1 (.stored m) tid u = (.stored m, .error .notFound) ∧
    toggleTodo now2 (.stored m) tid = (.stored m, .error .notFound) ∧
    deleteTodo now3 (.stored m) tid = (.stored m, .error .notFound) := by
  rcases h with ⟨hg, hr⟩ | ⟨hg, h2⟩
  · have hres : resolveIdStep m tid = .error .notFound := by
      simp [resolveIdStep, hg, hr]
    refine ⟨?_, ?_, ?_⟩ <;> simp [updateTodo, toggleTodo, deleteTodo, loadTodoMatrix, hres]
  · have hres : resolveIdStep m tid = .ok tid := by
      simp [resolveIdStep, hg]
    have hnone : ∀ q : Quadrant,
        findIdxJs (fun t => decide (t.id = tid)) (getQ m q) = none := fun q =>
      findIdxJs_eq_none_of _ _ (fun t ht => decide_eq_false (h2 q t ht))
    refine ⟨?_, ?_, ?_⟩
    · have e1 : updateInQuadrant tid u now1 .important_urgent ⟨m, false⟩ = ⟨m, false⟩ :=
        updateInQuadrant_miss (hnone _)
      have e2 : updateInQuadrant tid u now1 .important_not_urgent ⟨m, false⟩ = ⟨m, false⟩ :=
        updateInQuadrant_miss (hnone _)
      have e3 : updateInQuadrant tid u now1 .not_important_urgent ⟨m, false⟩ = ⟨m, false⟩ :=
        updateInQuadrant_miss (hnone _)
      have e4 : updateInQuadrant tid u now1 .not_important_not_urgent ⟨m, false⟩ = ⟨m, false⟩ :=
        updateInQuadrant_miss (hnone _)
      simp only [updateTodo, loadTodoMatrix, hres, e1, e2, e3, e4]
      rfl
    · have e1 : toggleInQuadrant tid now2 .important_urgent ⟨m, false⟩ = ⟨m, false⟩ :=
        toggleInQuadrant_miss (hnone _)
      have e2 : toggleInQuadrant tid now2 .important_not_urgent ⟨m, false⟩ = ⟨m, false⟩ :=
        toggleInQuadrant_miss (hnone _)
      have e3 : toggleInQuadrant tid now2 .not_important_urgent ⟨m, false⟩ = ⟨m, false⟩ :=
        toggleInQuadrant_miss (hnone _)
      have e4 : toggleInQuadrant tid now2 .not_important_not_urgent ⟨m, false⟩ = ⟨m, false⟩ :=
        toggleInQuadrant_miss (hnone _)
      simp only [toggleTodo, loadTodoMatrix, hres, e1, e2, e3, e4]
      rfl
    · have e1 : deleteFromQuadrant tid .important_urgent ⟨m, false⟩ = ⟨m, false⟩ :=
        deleteFromQuadrant_miss (hnone _)
      have e2 : deleteFromQuadrant tid .important_not_urgent ⟨m, false⟩ = ⟨m, false⟩ :=
        deleteFromQuadrant_miss (hnone _)
      have e3 : deleteFromQuadrant tid .not_important_urgent ⟨m, false⟩ = ⟨m, false⟩ :=
        deleteFromQuadrant_miss (hnone _)
      have e4 : deleteFromQuadrant tid .not_important_not_urgent ⟨m, false⟩ = ⟨m, false⟩ :=
        deleteFromQuadrant_miss (hnone _)
      simp only [deleteTodo, loadTodoMatrix, hres, e1, e2, e3, e4]
      rfl

/-- The one-item matrix used by several witnesses. -/
def sampleMatrix : TodoMatrix :=
  { important_urgent := [sampleHighUrgent], important_not_urgent := [],
    not_important_urgent := [], not_important_not_urgent := [],
    stats := { total := 1, completed := 0, active := 1 }, lastUpdated := 0 }

/-- Witness for C7: a stable id that is present nowhere in a concrete
one-item matrix. -/
theorem notFound_atomicity_witness :
    updateTodo 1 (.stored sampleMatrix) (jstr "nope") {} =
      (.stored sampleMatrix, .error .notFound) ∧
    toggleTodo 2 (.stored sampleMatrix) (jstr "nope") =
      (.stored sampleMatrix, .error .notFound) ∧
    deleteTodo 3 (.stored sampleMatrix) (jstr "nope") =
      (.stored sampleMatrix, .error .notFound) :=
  notFound_atomicity sampleMatrix (jstr "nope") {} 1 2 3 (by decide)

/-! ### Claim C10 -/

/-- C10. Resolver totality under the shape guard: for every string
accepted by `isUserFriendlyId` (one letter A–D in either case followed by
one or more decimal digits) and every matrix, `resolveUserFriendlyId`
returns either an item id or null — the element access at a `NaN` index is
unreachable, so the shape-guarded entry points never crash on a
display-id-shaped input. -/
theorem resolveUserFriendlyId_no_crash (m : TodoMatrix) (s : JStr)
    (h : isUserFriendlyId s = true) : resolveUserFriendlyId m s ≠ .crash := by
  match s, h with
  | c :: rest, h =>
      simp only [isUserFriendlyId, Bool.and_eq_true, decide_eq_true_eq, ne_eq] at h
      obtain ⟨hc, hne, hall⟩ := h
      have hall' : ∀ x ∈ rest, isDigitChar x = true := by
        intro x hx
        exact List.all_eq_true.mp hall x hx
      have hne' : rest ≠ [] := hne
      have hdrop : ((c :: rest).map jsToUpper).drop 1 = rest := by
        simp [map_jsToUpper_digits hall']
      have hparse : parseIntJs (((c :: rest).map jsToUpper).drop 1) =
          some ((digitsVal rest : Nat) : Int) := by
        rw [hdrop]
        exact parseIntJs_digits hne' hall'
      simp only [resolveUserFriendlyId, hparse]
      by_cases h1 : ((digitsVal rest : Nat) : Int) - 1 < 0
      · simp [h1]
      · rcases hk : QUADRANT_KEY_MAP (((c :: rest).map jsToUpper).head?) with _ | q
        · simp [h1, hk]
        · simp only [h1, hk, if_false]
          split <;> simp

/-- Witness for C10: the concrete display id "A1" against the one-item
matrix. -/
theorem resolveUserFriendlyId_no_crash_witness :
    isUserFriendlyId (jstr "A1") = true ∧
    resolveUserFriendlyId sampleMatrix (jstr "A1") ≠ .crash :=
  ⟨by decide, resolveUserFriendlyId_no_crash sampleMatrix (jstr "A1") (by decide)⟩

/-! ### Claim C6 -/

/-- C6. Display-id resolution failure conditions: resolution uppercases
the string, splits it into the leading letter and the 1-based numeric
index, and (whenever the numeric tail actually parses) returns null
exactly when the letter does not map to one of the four quadrants, or the
index is non-positive, or the index exceeds the current length of the
mapped quadrant's sequence; otherwise it returns the id of the item
currently at that 1-based position in that quadrant. -/
theorem resolveUserFriendlyId_failure_conditions (m : TodoMatrix) (s : JStr) (v : Int)
    (hp : parseIntJs ((s.map jsToUpper).drop 1) = some v) :
    (QUADRANT_KEY_MAP ((s.map jsToUpper).head?) = none →
        resolveUserFriendlyId m s = .nullRes) ∧
    (∀ q : Quadrant, QUADRANT_KEY_MAP ((s.map jsToUpper).head?) = some q →
        (resolveUserFriendlyId m s = .nullRes ↔
            v ≤ 0 ∨ ((getQ m q).length : Int) < v) ∧
        (0 < v → v ≤ ((getQ m q).length : Int) →
            resolveUserFriendlyId m s =
              .found (((getQ m q).getD ((v - 1).toNat) default).id))) := by
  constructor
  · intro hk
    simp only [resolveUserFriendlyId, hp, hk]
    split <;> rfl
  · intro q hk
    simp only [resolveUserFriendlyId, hp, hk]
    by_cases h1 : v - 1 < 0
    · have hv : v ≤ 0 := by omega
      simp [h1, hv]
    · have hv : 0 < v := by omega
      simp only [h1, if_false]
      by_cases h2 : (v - 1).toNat < (getQ m q).length
      · have hlen : ¬ (((getQ m q).length : Int) < v) := by omega
        constructor
        · simp only [dif_pos h2]
          constructor
          · intro hfound
            cases hfound
          · intro hcontra
            omega
        · intro _ _
          simp only [dif_pos h2]
          rw [List.getD_eq_getElem _ _ h2, List.get_eq_getElem]
      · have hlen : ((getQ m q).length : Int) < v := by omega
        constructor
        · simp only [dif_neg h2]
          constructor
          · intro _
            exact Or.inr hlen
          · intro _
            trivial
        · intro _ hle
          omega

/-- Witness for C6: the concrete display id "a2" (lower case, index past
the end of quadrant A, which has one item) against the one-item matrix. -/
theorem resolveUserFriendlyId_failure_conditions_witness :
    parseIntJs (((jstr "a2").map jsToUpper).drop 1) = some 2 ∧
    (QUADRANT_KEY_MAP (((jstr "a2").map jsToUpper).head?) = none →
        resolveUserFriendlyId sampleMatrix (jstr "a2") = .nullRes) ∧
    (∀ q : Quadrant, QUADRANT_KEY_MAP (((jstr "a2").map jsToUpper).head?) = some q →
        (resolveUserFriendlyId sampleMatrix (jstr "a2") = .nullRes ↔
            (2 : Int) ≤ 0 ∨ ((getQ sampleMatrix q).length : Int) < 2) ∧
        ((0 : Int) < 2 → (2 : Int) ≤ ((getQ sampleMatrix q).length : Int) →
            resolveUserFriendlyId sampleMatrix (jstr "a2") =
              .found (((getQ sampleMatrix q).getD (((2 : Int) - 1).toNat) default).id))) :=
  ⟨by decide,
   resolveUserFriendlyId_failure_conditions sampleMatrix (jstr "a2") 2 (by decide)⟩

/-! ### Claim C2 -/

/-- C2. Display-id round trip: for every matrix satisfying the
quadrant-consistency and unique-id invariants and every todo contained in
it, with no mutation between the two calls, resolving the generated
display id yields the todo's stable id. -/
theorem displayId_roundTrip (m : TodoMatrix) (t : TodoItem) (q0 : Quadrant)
    (hInv : ∀ q : Quadrant, ∀ x ∈ getQ m q, getQuadrantKey x = q)
    (hUniq : ((allTodos m).map (fun x => x.id)).Nodup)
    (hmem : t ∈ getQ m q0) :
    resolveUserFriendlyId m (generateDisplayId m t) = .found t.id := by
  have hq : getQuadrantKey t = q0 := hInv q0 t hmem
  obtain ⟨i, hfind⟩ :=
    @findIdxJs_isSome_of_mem (fun x => decide (x.id = t.id)) (getQ m q0) t hmem (by simp)
  have hgen : generateDisplayId m t = QUADRANT_PREFIX_MAP q0 :: natDigits (i + 1) := by
    simp only [generateDisplayId, hq, hfind]
  have hlt : i < (getQ m q0).length := (findIdxJs_spec hfind).1
  have hid : ((getQ m q0).getD i default).id = t.id := by
    have h2 := (findIdxJs_spec hfind).2
    simpa using h2
  have hdigits := natDigits_digits (i + 1)
  have hup : jsToUpper (QUADRANT_PREFIX_MAP q0) = QUADRANT_PREFIX_MAP q0 := by
    cases q0 <;> decide
  have hmap : (QUADRANT_PREFIX_MAP q0 :: natDigits (i + 1)).map jsToUpper =
      QUADRANT_PREFIX_MAP q0 :: natDigits (i + 1) := by
    simp [hup, map_jsToUpper_digits hdigits]
  have hkey : QUADRANT_KEY_MAP (some (QUADRANT_PREFIX_MAP q0)) = some q0 := by
    cases q0 <;> rfl
  rw [hgen]
  simp only [resolveUserFriendlyId, hmap, List.head?_cons, List.drop_succ_cons,
    List.drop_zero, parseIntJs_natDigits, hkey]
  have hnonneg : ¬ (((i + 1 : Nat) : Int) - 1 < 0) := by omega
  have htoNat : (((i + 1 : Nat) : Int) - 1).toNat = i := by omega
  simp only [hnonneg, if_false, htoNat, dif_pos hlt]
  rw [List.get_eq_getElem, ← List.getD_eq_getElem _ default hlt, hid]

/-- Witness for C2: the concrete one-item matrix and its item. -/
theorem displayId_roundTrip_witness :
    (∀ q : Quadrant, ∀ x ∈ getQ sampleMatrix q, getQuadrantKey x = q) ∧
    ((allTodos sampleMatrix).map (fun x => x.id)).Nodup ∧
    sampleHighUrgent ∈ getQ sampleMatrix .important_urgent ∧
    resolveUserFriendlyId sampleMatrix (generateDisplayId sampleMatrix sampleHighUrgent) =
      .found sampleHighUrgent.id :=
  ⟨by decide, by decide, by decide,
   displayId_roundTrip sampleMatrix sampleHighUrgent .important_urgent
     (by decide) (by decide) (by decide)⟩

/-! ### Generic walk over the four per-quadrant passes -/

/-- A run of passes in which every pass fixes the accumulator is the
identity. -/
theorem run_fixed (f : Quadrant → UpdAcc → UpdAcc) :
    ∀ (qs : List Quadrant) (acc : UpdAcc), (∀ qq ∈ qs, f qq acc = acc) →
      qs.foldl (fun a qq => f qq a) acc = acc := by
  intro qs
  induction qs with
  | nil => intro acc _; rfl
  | cons qq qs' ih =>
      intro acc h
      simp only [List.foldl_cons, h qq (List.mem_cons_self qq qs')]
      exact ih acc (fun x hx => h x (List.mem_cons_of_mem qq hx))

/-- A run in which exactly one pass (the one at `q`) fires, turning the
initial accumulator into a fixed point of all other passes, ends at that
fixed point. -/
theorem run_pinpoint (f : Quadrant → UpdAcc → UpdAcc) (q : Quadrant)
    (m M1 : TodoMatrix) :
    ∀ qs : List Quadrant, q ∈ qs → qs.Nodup →
      (∀ qq : Quadrant, qq ≠ q → f qq ⟨m, false⟩ = ⟨m, false⟩) →
      f q ⟨m, false⟩ = ⟨M1, true⟩ →
      (∀ qq : Quadrant, qq ≠ q → f qq ⟨M1, true⟩ = ⟨M1, true⟩) →
      qs.foldl (fun a qq => f qq a) ⟨m, false⟩ = ⟨M1, true⟩ := by
  intro qs
  induction qs with
  | nil => intro h; cases h
  | cons qq qs' ih =>
      intro hmem hnd h0 h1 h2
      have hnd' := List.nodup_cons.mp hnd
      by_cases hqq : qq = q
      · subst hqq
        simp only [List.foldl_cons, h1]
        exact run_fixed f qs' ⟨M1, true⟩
          (fun x hx => h2 x (fun hxq => hnd'.1 (hxq ▸ hx)))
      · have hmem' : q ∈ qs' := by
          rcases List.mem_cons.mp hmem with h | h
          · exact absurd h.symm hqq
          · exact h
        simp only [List.foldl_cons, h0 qq hqq]
        exact ih hmem' hnd'.2 h0 h1 h2

/-! ### Small list lemmas -/

theorem setQ_getQ_self (m : TodoMatrix) (q : Quadrant) : setQ m q (getQ m q) = m := by
  cases q <;> rfl

theorem getD_set_self {l : List TodoItem} {i : Nat} (x d : TodoItem)
    (h : i < l.length) : (l.set i x).getD i d = x := by
  rw [List.getD_eq_getElem _ _ (by simpa using h), List.getElem_set_self]

theorem getD_append_length (l : List TodoItem) (x d : TodoItem) :
    (l ++ [x]).getD l.length d = x := by
  rw [List.getD_eq_getElem _ _ (by simp)]
  rw [List.getElem_append_right (Nat.le_refl _)]
  simp

theorem set_append_length (l : List TodoItem) (x y : TodoItem) :
    (l ++ [x]).set l.length y = l ++ [y] := by
  rw [List.set_append]
  simp

theorem getD_mem {l : List TodoItem} {i : Nat} (d : TodoItem) (h : i < l.length) :
    l.getD i d ∈ l := by
  rw [List.getD_eq_getElem _ _ h]
  exact List.getElem_mem h

theorem toggleItem_id (t : TodoItem) (now : Time) : (toggleItem t now).id = t.id := by
  unfold toggleItem
  split <;> rfl

/-! ### Characterization of toggleTodo on a uniquely-placed item -/

theorem toggleTodo_spec (m : TodoMatrix) (q : Quadrant) (i : Nat) (tid : JStr) (now : Time)
    (hguard : isUserFriendlyId tid = false)
    (hq : ∀ (q' : Quadrant) (t : TodoItem), t ∈ getQ m q' → t.id = tid → q' = q)
    (hfind : findIdxJs (fun t => decide (t.id = tid)) (getQ m q) = some i) :
    toggleTodo now (.stored m) tid =
      (.stored (saveTodoMatrix now (setQ m q ((getQ m q).set i
          (toggleItem ((getQ m q).getD i default) now)))),
       .ok (saveTodoMatrix now (setQ m q ((getQ m q).set i
          (toggleItem ((getQ m q).getD i default) now))))) := by
  have hres : resolveIdStep m tid = .ok tid := by
    simp [resolveIdStep, hguard]
  have hnone : ∀ qq : Quadrant, qq ≠ q →
      findIdxJs (fun t => decide (t.id = tid)) (getQ m qq) = none := fun qq hne =>
    findIdxJs_eq_none_of _ _ (fun t ht =>
      decide_eq_false (fun hid => hne (hq qq t ht hid)))
  have h0 : ∀ qq : Quadrant, qq ≠ q →
      toggleInQuadrant tid now qq ⟨m, false⟩ = ⟨m, false⟩ := fun qq hne =>
    toggleInQuadrant_miss (hnone qq hne)
  have h1 : toggleInQuadrant tid now q ⟨m, false⟩ =
      ⟨setQ m q ((getQ m q).set i (toggleItem ((getQ m q).getD i default) now)), true⟩ :=
    toggleInQuadrant_hit hfind
  have h2 : ∀ qq : Quadrant, qq ≠ q →
      toggleInQuadrant tid now qq
          ⟨setQ m q ((getQ m q).set i (toggleItem ((getQ m q).getD i default) now)), true⟩ =
        ⟨setQ m q ((getQ m q).set i (toggleItem ((getQ m q).getD i default) now)), true⟩ :=
    fun qq hne => toggleInQuadrant_miss (by
      rw [show getQ (setQ m q ((getQ m q).set i
            (toggleItem ((getQ m q).getD i default) now))) qq = getQ m qq from
          getQ_setQ_ne m _ hne]
      exact hnone qq hne)
  have hrun := run_pinpoint (fun qq a => toggleInQuadrant tid now qq a) q m
    (setQ m q ((getQ m q).set i (toggleItem ((getQ m q).getD i default) now)))
    [.important_urgent, .important_not_urgent, .not_important_urgent, .not_important_not_urgent]
    (by cases q <;> decide) (by decide) h0 h1 h2
  have hrun' : toggleInQuadrant tid now .not_important_not_urgent
      (toggleInQuadrant tid now .not_important_urgent
        (toggleInQuadrant tid now .important_not_urgent
          (toggleInQuadrant tid now .important_urgent ⟨m, false⟩))) =
      ⟨setQ m q ((getQ m q).set i (toggleItem ((getQ m q).getD i default) now)), true⟩ := hrun
  simp only [toggleTodo, loadTodoMatrix, hres, hrun']
  rfl

/-! ### Claim C4 -/

/-- C4 (amended). Completion timestamp law for toggle: toggling an item
from incomplete to complete sets `completedAt` to a non-null timestamp
(`now`, which is ≥ `createdAt` whenever the clock has not gone backwards
since creation); toggling from complete to incomplete clears `completedAt`
to null; toggling the same item twice returns `completed` to its original
value, and `completedAt` returns to null when the item was originally
incomplete, while for an originally complete item it becomes a fresh
non-null timestamp (not necessarily the original one). -/
theorem completion_timestamp_law (m : TodoMatrix) (q : Quadrant) (i : Nat)
    (tid : JStr) (now1 now2 : Time)
    (hguard : isUserFriendlyId tid = false)
    (hq : ∀ (q' : Quadrant) (t : TodoItem), t ∈ getQ m q' → t.id = tid → q' = q)
    (hfind : findIdxJs (fun t => decide (t.id = tid)) (getQ m q) = some i)
    (hcr : ((getQ m q).getD i default).createdAt ≤ now1) :
    ∃ m1 m2 : TodoMatrix,
      toggleTodo now1 (.stored m) tid = (.stored m1, .ok m1) ∧
      toggleTodo now2 (.stored m1) tid = (.stored m2, .ok m2) ∧
      (((getQ m q).getD i default).completed = false →
        ((getQ m1 q).getD i default).completed = true ∧
        ((getQ m1 q).getD i default).completedAt = some now1 ∧
        ((getQ m q).getD i default).createdAt ≤ now1) ∧
      (((getQ m q).getD i default).completed = true →
        ((getQ m1 q).getD i default).completed = false ∧
        ((getQ m1 q).getD i default).completedAt = none) ∧
      ((getQ m2 q).getD i default).completed = ((getQ m q).getD i default).completed ∧
      (((getQ m q).getD i default).completed = false →
        ((getQ m2 q).getD i default).completedAt = none) ∧
      (((getQ m q).getD i default).completed = true →
        ((getQ m2 q).getD i default).completedAt = some now2) := by
  have hspec1 := toggleTodo_spec m q i tid now1 hguard hq hfind
  have hlen : i < (getQ m q).length := (findIdxJs_spec hfind).1
  have hidold : ((getQ m q).getD i default).id = tid :=
    of_decide_eq_true (findIdxJs_spec hfind).2
  have hget1 : getQ (saveTodoMatrix now1 (setQ m q ((getQ m q).set i
      (toggleItem ((getQ m q).getD i default) now1)))) q =
      (getQ m q).set i (toggleItem ((getQ m q).getD i default) now1) := by
    rw [getQ_saveTodoMatrix, getQ_setQ_same]
  have hg1ne : ∀ qq : Quadrant, qq ≠ q →
      getQ (saveTodoMatrix now1 (setQ m q ((getQ m q).set i
        (toggleItem ((getQ m q).getD i default) now1)))) qq = getQ m qq := by
    intro qq h
    rw [getQ_saveTodoMatrix, getQ_setQ_ne m _ h]
  have ht1id : (toggleItem ((getQ m q).getD i default) now1).id = tid := by
    rw [toggleItem_id]
    exact hidold
  have hq2 : ∀ (q' : Quadrant) (t : TodoItem),
      t ∈ getQ (saveTodoMatrix now1 (setQ m q ((getQ m q).set i
        (toggleItem ((getQ m q).getD i default) now1)))) q' → t.id = tid → q' = q := by
    intro q' t ht hid
    by_cases hq' : q' = q
    · exact hq'
    · rw [hg1ne q' hq'] at ht
      exact hq q' t ht hid
  have hfind2 : findIdxJs (fun t => decide (t.id = tid))
      (getQ (saveTodoMatrix now1 (setQ m q ((getQ m q).set i
        (toggleItem ((getQ m q).getD i default) now1)))) q) = some i := by
    rw [hget1]
    exact findIdxJs_set_same hfind (decide_eq_true ht1id)
  have hspec2 := toggleTodo_spec _ q i tid now2 hguard hq2 hfind2
  have hget1D : (getQ (saveTodoMatrix now1 (setQ m q ((getQ m q).set i
      (toggleItem ((getQ m q).getD i default) now1)))) q).getD i default =
      toggleItem ((getQ m q).getD i default) now1 := by
    rw [hget1]
    exact getD_set_self _ _ hlen
  have hlen2 : i < (getQ (saveTodoMatrix now1 (setQ m q ((getQ m q).set i
      (toggleItem ((getQ m q).getD i default) now1)))) q).length := by
    rw [hget1, List.length_set]
    exact hlen
  have hget2 : (getQ (saveTodoMatrix now2 (setQ (saveTodoMatrix now1 (setQ m q
      ((getQ m q).set i (toggleItem ((getQ m q).getD i default) now1)))) q
      ((getQ (saveTodoMatrix now1 (setQ m q ((getQ m q).set i
        (toggleItem ((getQ m q).getD i default) now1)))) q).set i
        (toggleItem ((getQ (saveTodoMatrix now1 (setQ m q ((getQ m q).set i
          (toggleItem ((getQ m q).getD i default) now1)))) q).getD i default) now2))))
      q).getD i default =
      toggleItem (toggleItem ((getQ m q).getD i default) now1) now2 := by
    rw [getQ_saveTodoMatrix, getQ_setQ_same, getD_set_self _ _ hlen2, hget1D]
  refine ⟨_, _, hspec1, hspec2, ?_, ?_, ?_, ?_, ?_⟩
  · intro hc
    rw [hget1D]
    unfold toggleItem
    rw [hc]
    refine ⟨by simp, by simp, hcr⟩
  · intro hc
    rw [hget1D]
    unfold toggleItem
    rw [hc]
    simp
  · rw [hget2]
    unfold toggleItem
    rcases hc : ((getQ m q).getD i default).completed <;> simp
  · intro hc
    rw [hget2]
    unfold toggleItem
    rw [hc]
    simp
  · intro hc
    rw [hget2]
    unfold toggleItem
    rw [hc]
    simp

/-- The one-item matrix whose item is already completed. -/
def sampleMatrixDone : TodoMatrix :=
  { sampleMatrix with important_urgent :=
      [{ sampleHighUrgent with completed := true, completedAt := some 0 }] }

/-- Counterexample to C4 as stated: toggling an originally completed item
twice returns `completed` to true but leaves `completedAt` as a fresh
non-null timestamp (`some 2` here), not null as the claim asserts. -/
theorem completion_timestamp_law_counterexample :
    ((toggleTodo 2 ((toggleTodo 1 (.stored sampleMatrixDone) (jstr "a1b2")).1)
        (jstr "a1b2")).2.toOption.map
      (fun mm => (getQ mm .important_urgent).map (fun t => (t.completed, t.completedAt)))) =
      some [(true, some 2)] := by decide

/-- Witness for the amended C4 at the concrete incomplete one-item matrix. -/
theorem completion_timestamp_law_witness :
    isUserFriendlyId (jstr "a1b2") = false ∧
    findIdxJs (fun t => decide (t.id = jstr "a1b2"))
      (getQ sampleMatrix .important_urgent) = some 0 ∧
    (∃ m1 m2 : TodoMatrix,
      toggleTodo 1 (.stored sampleMatrix) (jstr "a1b2") = (.stored m1, .ok m1) ∧
      toggleTodo 2 (.stored m1) (jstr "a1b2") = (.stored m2, .ok m2) ∧
      (((getQ sampleMatrix .important_urgent).getD 0 default).completed = false →
        ((getQ m1 .important_urgent).getD 0 default).completed = true ∧
        ((getQ m1 .important_urgent).getD 0 default).completedAt = some 1 ∧
        ((getQ sampleMatrix .important_urgent).getD 0 default).createdAt ≤ 1) ∧
      (((getQ sampleMatrix .important_urgent).getD 0 default).completed = true →
        ((getQ m1 .important_urgent).getD 0 default).completed = false ∧
        ((getQ m1 .important_urgent).getD 0 default).completedAt = none) ∧
      ((getQ m2 .important_urgent).getD 0 default).completed =
        ((getQ sampleMatrix .important_urgent).getD 0 default).completed ∧
      (((getQ sampleMatrix .important_urgent).getD 0 default).completed = false →
        ((getQ m2 .important_urgent).getD 0 default).completedAt = none) ∧
      (((getQ sampleMatrix .important_urgent).getD 0 default).completed = true →
        ((getQ m2 .important_urgent).getD 0 default).completedAt = some 2)) :=
  ⟨by decide, by decide,
   completion_timestamp_law sampleMatrix .important_urgent 0 (jstr "a1b2") 1 2
     (by decide) (by decide) (by decide) (by decide)⟩

/-! ### Characterization of updateTodo on a uniquely-placed item -/

theorem updateTodo_spec_stay (m : TodoMatrix) (q : Quadrant) (i : Nat)
    (tid : JStr) (u : TodoPatch) (now : Time)
    (hguard : isUserFriendlyId tid = false)
    (hq : ∀ (q' : Quadrant) (t : TodoItem), t ∈ getQ m q' → t.id = tid → q' = q)
    (hfind : findIdxJs (fun t => decide (t.id = tid)) (getQ m q) = some i)
    (hstay : getQuadrantKey (mergeTodo ((getQ m q).getD i default) u now) = q) :
    updateTodo now (.stored m) tid u =
      (.stored (saveTodoMatrix now (setQ m q ((getQ m q).set i
          (mergeTodo ((getQ m q).getD i default) u now)))),
       .ok (saveTodoMatrix now (setQ m q ((getQ m q).set i
          (mergeTodo ((getQ m q).getD i default) u now))))) := by
  have hres : resolveIdStep m tid = .ok tid := by
    simp [resolveIdStep, hguard]
  have hnone : ∀ qq : Quadrant, qq ≠ q →
      findIdxJs (fun t => decide (t.id = tid)) (getQ m qq) = none := fun qq hne =>
    findIdxJs_eq_none_of _ _ (fun t ht =>
      decide_eq_false (fun hid => hne (hq qq t ht hid)))
  have h0 : ∀ qq : Quadrant, qq ≠ q →
      updateInQuadrant tid u now qq ⟨m, false⟩ = ⟨m, false⟩ := fun qq hne =>
    updateInQuadrant_miss (hnone qq hne)
  have h1 : updateInQuadrant tid u now q ⟨m, false⟩ =
      ⟨setQ m q ((getQ m q).set i (mergeTodo ((getQ m q).getD i default) u now)), true⟩ :=
    updateInQuadrant_stay hfind hstay
  have h2 : ∀ qq : Quadrant, qq ≠ q →
      updateInQuadrant tid u now qq
          ⟨setQ m q ((getQ m q).set i (mergeTodo ((getQ m q).getD i default) u now)), true⟩ =
        ⟨setQ m q ((getQ m q).set i (mergeTodo ((getQ m q).getD i default) u now)), true⟩ :=
    fun qq hne => updateInQuadrant_miss (by
      rw [show getQ (setQ m q ((getQ m q).set i
            (mergeTodo ((getQ m q).getD i default) u now))) qq = getQ m qq from
          getQ_setQ_ne m _ hne]
      exact hnone qq hne)
  have hrun := run_pinpoint (fun qq a => updateInQuadrant tid u now qq a) q m
    (setQ m q ((getQ m q).set i (mergeTodo ((getQ m q).getD i default) u now)))
    [.important_urgent, .important_not_urgent, .not_important_urgent, .not_important_not_urgent]
    (by cases q <;> decide) (by decide) h0 h1 h2
  have hrun' : updateInQuadrant tid u now .not_important_not_urgent
      (updateInQuadrant tid u now .not_important_urgent
        (updateInQuadrant tid u now .important_not_urgent
          (updateInQuadrant tid u now .important_urgent ⟨m, false⟩))) =
      ⟨setQ m q ((getQ m q).set i (mergeTodo ((getQ m q).getD i default) u now)), true⟩ := hrun
  simp only [updateTodo, loadTodoMatrix, hres, hrun']
  rfl

theorem updateTodo_spec_move (m : TodoMatrix) (q : Quadrant) (i : Nat)
    (tid : JStr) (u : TodoPatch) (now : Time)
    (hguard : isUserFriendlyId tid = false)
    (hq : ∀ (q' : Quadrant) (t : TodoItem), t ∈ getQ m q' → t.id = tid → q' = q)
    (hfind : findIdxJs (fun t => decide (t.id = tid)) (getQ m q) = some i)
    (hmove : getQuadrantKey (mergeTodo ((getQ m q).getD i default) u now) ≠ q)
    (hsecond : (mergeTodo ((getQ m q).getD i default) u now).id = tid →
        mergeTodo (mergeTodo ((getQ m q).getD i default) u now) u now =
          mergeTodo ((getQ m q).getD i default) u now) :
    updateTodo now (.stored m) tid u =
      (.stored (saveTodoMatrix now
          (setQ (setQ m q ((getQ m q).eraseIdx i))
            (getQuadrantKey (mergeTodo ((getQ m q).getD i default) u now))
            (getQ m (getQuadrantKey (mergeTodo ((getQ m q).getD i default) u now)) ++
              [mergeTodo ((getQ m q).getD i default) u now]))),
       .ok (saveTodoMatrix now
          (setQ (setQ m q ((getQ m q).eraseIdx i))
            (getQuadrantKey (mergeTodo ((getQ m q).getD i default) u now))
            (getQ m (getQuadrantKey (mergeTodo ((getQ m q).getD i default) u now)) ++
              [mergeTodo ((getQ m q).getD i default) u now])))) := by
  set merged := mergeTodo ((getQ m q).getD i default) u now with hmerged
  set qd := getQuadrantKey merged with hqd_def
  set M1 := setQ (setQ m q ((getQ m q).eraseIdx i)) qd (getQ m qd ++ [merged]) with hM1
  have hres : resolveIdStep m tid = .ok tid := by
    simp [resolveIdStep, hguard]
  have hnone : ∀ qq : Quadrant, qq ≠ q →
      findIdxJs (fun t => decide (t.id = tid)) (getQ m qq) = none := fun qq hne =>
    findIdxJs_eq_none_of _ _ (fun t ht =>
      decide_eq_false (fun hid => hne (hq qq t ht hid)))
  have h0 : ∀ qq : Quadrant, qq ≠ q →
      updateInQuadrant tid u now qq ⟨m, false⟩ = ⟨m, false⟩ := fun qq hne =>
    updateInQuadrant_miss (hnone qq hne)
  have hgetd : getQ (setQ m q ((getQ m q).eraseIdx i)) qd = getQ m qd :=
    getQ_setQ_ne m _ hmove
  have h1 : updateInQuadrant tid u now q ⟨m, false⟩ = ⟨M1, true⟩ := by
    rw [updateInQuadrant_move hfind hmove]
    rw [hM1, ← hmerged, ← hqd_def, hgetd]
  have hM1qd : getQ M1 qd = getQ m qd ++ [merged] := by
    rw [hM1, getQ_setQ_same]
  have hM1ne : ∀ qq : Quadrant, qq ≠ q → qq ≠ qd → getQ M1 qq = getQ m qq := by
    intro qq h1' h2'
    rw [hM1, getQ_setQ_ne _ _ h2', getQ_setQ_ne _ _ h1']
  have h2 : ∀ qq : Quadrant, qq ≠ q →
      updateInQuadrant tid u now qq ⟨M1, true⟩ = ⟨M1, true⟩ := by
    intro qq hne
    by_cases hqd : qq = qd
    · subst hqd
      rcases hmid : decide (merged.id = tid) with _ | _
      · refine updateInQuadrant_miss ?_
        rw [show getQ (⟨M1, true⟩ : UpdAcc).matrix qd = getQ m qd ++ [merged] from hM1qd]
        refine findIdxJs_eq_none_of _ _ ?_
        intro t ht
        rcases List.mem_append.mp ht with ha | hb
        · exact decide_eq_false (fun hid => hne (hq qd t ha hid))
        · rcases List.mem_singleton.mp hb with rfl
          exact hmid
      · have hmid' : merged.id = tid := of_decide_eq_true hmid
        have hsec := hsecond hmid'
        have hfind2 : findIdxJs (fun t => decide (t.id = tid))
            (getQ (⟨M1, true⟩ : UpdAcc).matrix qd) = some (getQ m qd).length := by
          rw [show getQ (⟨M1, true⟩ : UpdAcc).matrix qd = getQ m qd ++ [merged] from hM1qd]
          exact findIdxJs_append_hit
            (fun t ht => decide_eq_false (fun hid => hne (hq qd t ht hid))) hmid
        have hold2 : (getQ (⟨M1, true⟩ : UpdAcc).matrix qd).getD (getQ m qd).length default =
            merged := by
          rw [show getQ (⟨M1, true⟩ : UpdAcc).matrix qd = getQ m qd ++ [merged] from hM1qd]
          exact getD_append_length _ _ _
        have hstay2 : getQuadrantKey (mergeTodo
            ((getQ (⟨M1, true⟩ : UpdAcc).matrix qd).getD (getQ m qd).length default) u now) =
            qd := by
          rw [hold2, hsec, ← hqd_def]
        rw [updateInQuadrant_stay hfind2 hstay2]
        rw [hold2, hsec]
        rw [show getQ (⟨M1, true⟩ : UpdAcc).matrix qd = getQ m qd ++ [merged] from hM1qd,
          set_append_length]
        rw [show getQ m qd ++ [merged] = getQ M1 qd from hM1qd.symm, setQ_getQ_self]
    · refine updateInQuadrant_miss ?_
      rw [show getQ (⟨M1, true⟩ : UpdAcc).matrix qq = getQ m qq from hM1ne qq hne hqd]
      exact hnone qq hne
  have hrun := run_pinpoint (fun qq a => updateInQuadrant tid u now qq a) q m M1
    [.important_urgent, .important_not_urgent, .not_important_urgent, .not_important_not_urgent]
    (by cases q <;> decide) (by decide) h0 h1 h2
  have hrun' : updateInQuadrant tid u now .not_important_not_urgent
      (updateInQuadrant tid u now .not_important_urgent
        (updateInQuadrant tid u now .important_not_urgent
          (updateInQuadrant tid u now .important_urgent ⟨m, false⟩))) = ⟨M1, true⟩ := hrun
  simp only [updateTodo, loadTodoMatrix, hres, hrun']
  rfl

/-! ### Claim C3 -/

/-- C3 (amended). Reclassification move: for a uniquely-identified item
found by update, if the patched (priority, urgency) computes to a
different quadrant than the one currently holding the item, update removes
the item from its old sequence (subsequent items shift down one position)
and appends the merged item at the end of the new quadrant's sequence; if
the computed quadrant is unchanged, the merged item replaces the old one
at its existing index in the same sequence. Amendment: when the patch sets
`completed = true` it must not also carry a `completedAt` value — in that
corner the item moved to a later-processed quadrant is found again by
update's quadrant sweep and re-merged, which overwrites the freshly
stamped `completedAt` with the patch's value, so the appended item is not
the merged item. -/
theorem reclassification_move (m : TodoMatrix) (q : Quadrant) (i : Nat)
    (tid : JStr) (u : TodoPatch) (now : Time)
    (hguard : isUserFriendlyId tid = false)
    (hq : ∀ (q' : Quadrant) (t : TodoItem), t ∈ getQ m q' → t.id = tid → q' = q)
    (hfind : findIdxJs (fun t => decide (t.id = tid)) (getQ m q) = some i)
    (hcorner : u.completed = some true → u.completedAt = none) :
    (getQuadrantKey (mergeTodo ((getQ m q).getD i default) u now) ≠ q →
       ∃ S : TodoMatrix,
         updateTodo now (.stored m) tid u = (.stored S, .ok S) ∧
         getQ S q = (getQ m q).eraseIdx i ∧
         getQ S (getQuadrantKey (mergeTodo ((getQ m q).getD i default) u now)) =
           getQ m (getQuadrantKey (mergeTodo ((getQ m q).getD i default) u now)) ++
             [mergeTodo ((getQ m q).getD i default) u now] ∧
         (∀ qq : Quadrant, qq ≠ q →
            qq ≠ getQuadrantKey (mergeTodo ((getQ m q).getD i default) u now) →
            getQ S qq = getQ m qq)) ∧
    (getQuadrantKey (mergeTodo ((getQ m q).getD i default) u now) = q →
       ∃ S : TodoMatrix,
         updateTodo now (.stored m) tid u = (.stored S, .ok S) ∧
         getQ S q = (getQ m q).set i (mergeTodo ((getQ m q).getD i default) u now) ∧
         (∀ qq : Quadrant, qq ≠ q → getQ S qq = getQ m qq)) := by
  constructor
  · intro hmove
    have hspec := updateTodo_spec_move m q i tid u now hguard hq hfind hmove
      (fun _ => mergeTodo_idem _ _ _ _ hcorner)
    refine ⟨_, hspec, ?_, ?_, ?_⟩
    · rw [getQ_saveTodoMatrix, getQ_setQ_ne _ _ (Ne.symm hmove), getQ_setQ_same]
    · rw [getQ_saveTodoMatrix, getQ_setQ_same]
    · intro qq h1' h2'
      rw [getQ_saveTodoMatrix, getQ_setQ_ne _ _ h2', getQ_setQ_ne _ _ h1']
  · intro hstay
    have hspec := updateTodo_spec_stay m q i tid u now hguard hq hfind hstay
    refine ⟨_, hspec, ?_, ?_⟩
    · rw [getQ_saveTodoMatrix, getQ_setQ_same]
    · intro qq h1'
      rw [getQ_saveTodoMatrix, getQ_setQ_ne _ _ h1']

/-- Counterexample to C3 as stated: patching an incomplete item in quadrant
A with `{priority: low, completed: true, completedAt: 42}` at clock time 5
moves it to quadrant C, but the item actually stored there carries
`completedAt = 42` (the patch's value, re-applied when the moved item is
found again by the later quadrant pass), while the merged item that the
claim says is appended carries the freshly stamped `completedAt = 5`. -/
theorem reclassification_move_counterexample :
    ((updateTodo 5 (.stored sampleMatrix) (jstr "a1b2")
        { priority := some (jstr "low"), completed := some true,
          completedAt := some (some 42) }).2.toOption.map
      (fun S => (getQ S .not_important_urgent).map (fun t => t.completedAt))) =
      some [some 42] ∧
    (mergeTodo ((getQ sampleMatrix .important_urgent).getD 0 default)
        { priority := some (jstr "low"), completed := some true,
          completedAt := some (some 42) } 5).completedAt = some 5 := by
  constructor
  · decide
  · decide

/-- Witness for the amended C3: moving the concrete item from quadrant A
to quadrant C by patching its priority to low. -/
theorem reclassification_move_witness :
    ∃ S : TodoMatrix,
      updateTodo 5 (.stored sampleMatrix) (jstr "a1b2")
          { priority := some (jstr "low") } = (.stored S, .ok S) ∧
      getQ S .important_urgent = (getQ sampleMatrix .important_urgent).eraseIdx 0 ∧
      getQ S .not_important_urgent =
        getQ sampleMatrix .not_important_urgent ++
          [mergeTodo ((getQ sampleMatrix .important_urgent).getD 0 default)
            { priority := some (jstr "low") } 5] ∧
      (∀ qq : Quadrant, qq ≠ .important_urgent → qq ≠ .not_important_urgent →
        getQ S qq = getQ sampleMatrix qq) :=
  (reclassification_move sampleMatrix .important_urgent 0 (jstr "a1b2")
      { priority := some (jstr "low") } 5 (by decide) (by decide) (by decide)
      (by decide)).1 (by decide)

/-! ### Identity-field preservation machinery for updateTodo -/

theorem updateInQuadrant_found_of_hit {tid : JStr} {u : TodoPatch} {now : Time}
    {qq : Quadrant} {acc : UpdAcc} {i : Nat}
    (hf : findIdxJs (fun t => decide (t.id = tid)) (getQ acc.matrix qq) = some i) :
    (updateInQuadrant tid u now qq acc).found = true := by
  unfold updateInQuadrant
  simp only [hf]
  split <;> rfl

theorem updateInQuadrant_found_mono {tid : JStr} {u : TodoPatch} {now : Time}
    {qq : Quadrant} {acc : UpdAcc} (h : acc.found = true) :
    (updateInQuadrant tid u now qq acc).found = true := by
  unfold updateInQuadrant
  rcases hf : findIdxJs (fun t => decide (t.id = tid)) (getQ acc.matrix qq) with _ | i
  · simp only [hf]
    exact h
  · simp only [hf]
    split <;> rfl

/-- There is still an item carrying the stable id `tid`, and every item
carrying it has the original creation timestamp. -/
def IdCreatedInv (tid : JStr) (cA : Time) (M : TodoMatrix) : Prop :=
  (∀ (qq : Quadrant) (y : TodoItem), y ∈ getQ M qq → y.id = tid → y.createdAt = cA) ∧
  (∃ (qq : Quadrant) (y : TodoItem), y ∈ getQ M qq ∧ y.id = tid)

theorem updateInQuadrant_preserves_idCreated {tid : JStr} {u : TodoPatch} {now : Time}
    {qq : Quadrant} {acc : UpdAcc} {cA : Time}
    (hid : u.id = none) (hcr : u.createdAt = none)
    (h : IdCreatedInv tid cA acc.matrix) :
    IdCreatedInv tid cA (updateInQuadrant tid u now qq acc).matrix := by
  rcases hf : findIdxJs (fun t => decide (t.id = tid)) (getQ acc.matrix qq) with _ | i0
  · rw [updateInQuadrant_miss hf]
    exact h
  · have hlen := (findIdxJs_spec hf).1
    have hido : ((getQ acc.matrix qq).getD i0 default).id = tid :=
      of_decide_eq_true (findIdxJs_spec hf).2
    have hmemo : (getQ acc.matrix qq).getD i0 default ∈ getQ acc.matrix qq :=
      getD_mem _ hlen
    have hmgid : (mergeTodo ((getQ acc.matrix qq).getD i0 default) u now).id = tid := by
      rw [mergeTodo_id, hid, Option.getD_none]
      exact hido
    have hmgcr : (mergeTodo ((getQ acc.matrix qq).getD i0 default) u now).createdAt = cA := by
      rw [mergeTodo_createdAt, hcr, Option.getD_none]
      exact h.1 qq _ hmemo hido
    by_cases hqk : getQuadrantKey (mergeTodo ((getQ acc.matrix qq).getD i0 default) u now) = qq
    · rw [updateInQuadrant_stay hf hqk]
      constructor
      · intro qq' y hy hyid
        by_cases hq' : qq' = qq
        · subst hq'
          rw [getQ_setQ_same] at hy
          rcases List.mem_or_eq_of_mem_set hy with ha | rfl
          · exact h.1 qq' y ha hyid
          · exact hmgcr
        · rw [getQ_setQ_ne _ _ hq'] at hy
          exact h.1 qq' y hy hyid
      · refine ⟨qq, mergeTodo ((getQ acc.matrix qq).getD i0 default) u now, ?_, hmgid⟩
        rw [getQ_setQ_same]
        exact List.mem_set _ i0 hlen _
    · rw [updateInQuadrant_move hf hqk]
      constructor
      · intro qq' y hy hyid
        by_cases hq1 : qq' = getQuadrantKey (mergeTodo ((getQ acc.matrix qq).getD i0 default) u now)
        · rw [hq1, getQ_setQ_same] at hy
          rcases List.mem_append.mp hy with ha | hb
          · rw [getQ_setQ_ne _ _ hqk] at ha
            exact h.1 _ y ha hyid
          · rcases List.mem_singleton.mp hb with rfl
            exact hmgcr
        · rw [getQ_setQ_ne _ _ hq1] at hy
          by_cases hq2 : qq' = qq
          · subst hq2
            rw [getQ_setQ_same] at hy
            exact h.1 qq' y ((List.eraseIdx_sublist _ i0).mem hy) hyid
          · rw [getQ_setQ_ne _ _ hq2] at hy
            exact h.1 qq' y hy hyid
      · refine ⟨getQuadrantKey (mergeTodo ((getQ acc.matrix qq).getD i0 default) u now),
          mergeTodo ((getQ acc.matrix qq).getD i0 default) u now, ?_, hmgid⟩
        rw [getQ_setQ_same]
        exact List.mem_append.mpr (Or.inr (List.mem_singleton.mpr rfl))

theorem run_preserves_idCreated {tid : JStr} {u : TodoPatch} {now : Time} {cA : Time}
    (hid : u.id = none) (hcr : u.createdAt = none) :
    ∀ (qs : List Quadrant) (acc : UpdAcc), acc.found = true →
      IdCreatedInv tid cA acc.matrix →
      (qs.foldl (fun a qq => updateInQuadrant tid u now qq a) acc).found = true ∧
      IdCreatedInv tid cA
        (qs.foldl (fun a qq => updateInQuadrant tid u now qq a) acc).matrix := by
  intro qs
  induction qs with
  | nil => exact fun acc hf hQ => ⟨hf, hQ⟩
  | cons qq qs' ih =>
      intro acc hf hQ
      simp only [List.foldl_cons]
      exact ih _ (updateInQuadrant_found_mono hf)
        (updateInQuadrant_preserves_idCreated hid hcr hQ)

theorem run_c5 {tid : JStr} {u : TodoPatch} {now : Time} {cA : Time}
    {m : TodoMatrix} {q : Quadrant} {i : Nat}
    (hid : u.id = none) (hcr : u.createdAt = none)
    (hq : ∀ (q' : Quadrant) (t : TodoItem), t ∈ getQ m q' → t.id = tid → q' = q)
    (hfind : findIdxJs (fun t => decide (t.id = tid)) (getQ m q) = some i)
    (hQ : IdCreatedInv tid cA m) :
    ∀ qs : List Quadrant, q ∈ qs →
      (qs.foldl (fun a qq => updateInQuadrant tid u now qq a) ⟨m, false⟩).found = true ∧
      IdCreatedInv tid cA
        (qs.foldl (fun a qq => updateInQuadrant tid u now qq a) ⟨m, false⟩).matrix := by
  intro qs
  induction qs with
  | nil => intro h; cases h
  | cons qq qs' ih =>
      intro hmem
      by_cases hqq : qq = q
      · subst hqq
        simp only [List.foldl_cons]
        exact run_preserves_idCreated hid hcr qs' _
          (updateInQuadrant_found_of_hit hfind)
          (updateInQuadrant_preserves_idCreated hid hcr hQ)
      · have hmem' : q ∈ qs' := by
          rcases List.mem_cons.mp hmem with h | h
          · exact absurd h.symm hqq
          · exact h
        have hmiss : updateInQuadrant tid u now qq ⟨m, false⟩ = ⟨m, false⟩ :=
          updateInQuadrant_miss (findIdxJs_eq_none_of _ _ (fun t ht =>
            decide_eq_false (fun hidm => hqq (hq qq t ht hidm))))
        simp only [List.foldl_cons, hmiss]
        exact ih hmem'

/-! ### Claim C5 -/

/-- C5 (amended). Identity-field immutability under update: for every
persisted matrix, every uniquely-identified item present in it, and every
update patch that does not itself carry `id` or `createdAt` fields, the
update succeeds and the located item keeps its stable id and its creation
timestamp: an item with the original id is still present afterwards, and
every item carrying that id still has the original `createdAt`.
(The source merges the patch object blindly, so a patch that does carry
`id` or `createdAt` overwrites them — see the counterexample.) -/
theorem update_preserves_identity_fields (m : TodoMatrix) (q : Quadrant) (i : Nat)
    (tid : JStr) (u : TodoPatch) (now : Time)
    (hguard : isUserFriendlyId tid = false)
    (hq : ∀ (q' : Quadrant) (t : TodoItem), t ∈ getQ m q' → t.id = tid → q' = q)
    (hfind : findIdxJs (fun t => decide (t.id = tid)) (getQ m q) = some i)
    (hid : u.id = none) (hcr : u.createdAt = none)
    (hcA : ∀ (qq : Quadrant) (y : TodoItem), y ∈ getQ m qq → y.id = tid →
        y.createdAt = ((getQ m q).getD i default).createdAt) :
    ∃ S : TodoMatrix,
      updateTodo now (.stored m) tid u = (.stored S, .ok S) ∧
      (∃ (qq : Quadrant) (y : TodoItem), y ∈ getQ S qq ∧ y.id = tid) ∧
      (∀ (qq : Quadrant) (y : TodoItem), y ∈ getQ S qq → y.id = tid →
        y.createdAt = ((getQ m q).getD i default).createdAt) := by
  have hres : resolveIdStep m tid = .ok tid := by
    simp [resolveIdStep, hguard]
  have hido : ((getQ m q).getD i default).id = tid :=
    of_decide_eq_true (findIdxJs_spec hfind).2
  have hQ : IdCreatedInv tid ((getQ m q).getD i default).createdAt m :=
    ⟨hcA, ⟨q, (getQ m q).getD i default, getD_mem _ (findIdxJs_spec hfind).1, hido⟩⟩
  have hrun := @run_c5 tid u now (((getQ m q).getD i default).createdAt) m q i
    hid hcr hq hfind hQ
    [.important_urgent, .important_not_urgent, .not_important_urgent, .not_important_not_urgent]
    (by cases q <;> decide)
  have hfound : (updateInQuadrant tid u now .not_important_not_urgent
      (updateInQuadrant tid u now .not_important_urgent
        (updateInQuadrant tid u now .important_not_urgent
          (updateInQuadrant tid u now .important_urgent ⟨m, false⟩)))).found = true := hrun.1
  have hQ4 : IdCreatedInv tid ((getQ m q).getD i default).createdAt
      (updateInQuadrant tid u now .not_important_not_urgent
        (updateInQuadrant tid u now .not_important_urgent
          (updateInQuadrant tid u now .important_not_urgent
            (updateInQuadrant tid u now .important_urgent ⟨m, false⟩)))).matrix := hrun.2
  simp only [updateTodo, loadTodoMatrix, hres, hfound, if_true]
  refine ⟨_, rfl, ?_, ?_⟩
  · obtain ⟨qq, y, hy, hyid⟩ := hQ4.2
    exact ⟨qq, y, by rw [getQ_saveTodoMatrix]; exact hy, hyid⟩
  · intro qq y hy hyid
    rw [getQ_saveTodoMatrix] at hy
    exact hQ4.1 qq y hy hyid

/-- Counterexample to C5 as stated: a patch carrying an `id` field
reassigns the located item's stable id (and a `createdAt` field would
likewise overwrite the creation timestamp), because the source merges
`{ ...oldTodo, ...updates }` without protecting the identity fields. -/
theorem update_preserves_identity_fields_counterexample :
    ((updateTodo 5 (.stored sampleMatrix) (jstr "a1b2")
        { id := some (jstr "zz"), createdAt := some 9 }).2.toOption.map
      (fun S => (getQ S .important_urgent).map (fun t => (t.id, t.createdAt)))) =
      some [(jstr "zz", 9)] := by decide

/-- Witness for the amended C5: a title-only patch of the concrete item. -/
theorem update_preserves_identity_fields_witness :
    ∃ S : TodoMatrix,
      updateTodo 5 (.stored sampleMatrix) (jstr "a1b2")
          { title := some (jstr "renamed") } = (.stored S, .ok S) ∧
      (∃ (qq : Quadrant) (y : TodoItem), y ∈ getQ S qq ∧ y.id = jstr "a1b2") ∧
      (∀ (qq : Quadrant) (y : TodoItem), y ∈ getQ S qq → y.id = jstr "a1b2" →
        y.createdAt =
          ((getQ sampleMatrix .important_urgent).getD 0 default).createdAt) :=
  update_preserves_identity_fields sampleMatrix .important_urgent 0 (jstr "a1b2")
    { title := some (jstr "renamed") } 5 (by decide) (by decide) (by decide)
    (by decide) (by decide) (by decide)

/-! ### Claim C8 -/

theorem dropWhile_idem (p : Char → Bool) (l : List Char) :
    (l.dropWhile p).dropWhile p = l.dropWhile p := by
  induction l with
  | nil => rfl
  | cons a as ih =>
      by_cases ha : p a = true
      · rw [List.dropWhile_cons, if_pos ha, ih]
      · rw [List.dropWhile_cons, if_neg ha, List.dropWhile_cons, if_neg ha]

theorem dropWhile_head_false (p : Char → Bool) :
    ∀ (l : List Char) (c : Char) (t : List Char), l.dropWhile p = c :: t → p c = false := by
  intro l
  induction l with
  | nil => intro c t h; cases h
  | cons a as ih =>
      intro c t h
      by_cases ha : p a = true
      · rw [List.dropWhile_cons, if_pos ha] at h
        exact ih _ _ h
      · rw [List.dropWhile_cons, if_neg ha] at h
        cases h
        exact eq_false_of_ne_true ha

/-- The trimmed title has no leading whitespace. -/
theorem trim_no_leading (s : JStr) :
    (((s.dropWhile isJsSpace).reverse.dropWhile isJsSpace).reverse).dropWhile isJsSpace =
      ((s.dropWhile isJsSpace).reverse.dropWhile isJsSpace).reverse := by
  have hpre : ((s.dropWhile isJsSpace).reverse.dropWhile isJsSpace).reverse <+:
      s.dropWhile isJsSpace := by
    rw [← List.reverse_suffix, List.reverse_reverse]
    exact List.dropWhile_suffix _
  rcases ht : ((s.dropWhile isJsSpace).reverse.dropWhile isJsSpace).reverse with _ | ⟨c, rest⟩
  · rfl
  · obtain ⟨tl, htl⟩ := hpre
    rw [ht] at htl
    have hc : isJsSpace c = false := by
      refine dropWhile_head_false isJsSpace s c (rest ++ tl) ?_
      rw [← htl]
      rfl
    rw [List.dropWhile_cons, if_neg (by simp [hc])]

/-- The trimmed title has no trailing whitespace. -/
theorem trim_no_trailing (s : JStr) :
    ((((s.dropWhile isJsSpace).reverse.dropWhile isJsSpace).reverse).reverse).dropWhile
        isJsSpace =
      (((s.dropWhile isJsSpace).reverse.dropWhile isJsSpace).reverse).reverse := by
  rw [List.reverse_reverse]
  exact dropWhile_idem _ _

/-- Counterexample to C8 as stated: `createTodo` performs no validation at
all — a whitespace-only title is accepted silently and stored as the empty
string, instead of failing with a validation error before any mutation. -/
theorem createTodo_accepts_empty_title :
    createTodo (jstr "   ") {} (jstr "u1") 7 =
      { id := jstr "u1", title := [], description := [], priority := jstr "low",
        urgency := jstr "not-urgent", completed := false, createdAt := 7,
        completedAt := none, tags := [], links := [], metadata := [] } := by decide

/-- C8 (amended). Create trims the title (the stored title carries no
leading or trailing whitespace) but accepts an empty result silently —
there is no validation error; with no options given, priority defaults to
"low", urgency to "not-urgent", completed to false, tags and links to
empty sequences, the id to the freshly generated one and createdAt to the
current time. -/
theorem createTodo_trim_and_defaults :
    ∀ (title freshId : JStr) (now : Time),
      (createTodo title {} freshId now).title.dropWhile isJsSpace =
          (createTodo title {} freshId now).title ∧
      (createTodo title {} freshId now).title.reverse.dropWhile isJsSpace =
          (createTodo title {} freshId now).title.reverse ∧
      (createTodo title {} freshId now).priority = jstr "low" ∧
      (createTodo title {} freshId now).urgency = jstr "not-urgent" ∧
      (createTodo title {} freshId now).completed = false ∧
      (createTodo title {} freshId now).tags = [] ∧
      (createTodo title {} freshId now).links = [] ∧
      (createTodo title {} freshId now).id = freshId ∧
      (createTodo title {} freshId now).createdAt = now := by
  intro title freshId now
  refine ⟨?_, ?_, rfl, rfl, rfl, rfl, rfl, rfl, rfl⟩
  · exact trim_no_leading title
  · rw [show (createTodo title {} freshId now).title =
        ((title.dropWhile isJsSpace).reverse.dropWhile isJsSpace).reverse from rfl,
      List.reverse_reverse]
    exact dropWhile_idem _ _
